import Mathlib

/-!
# Formal model of the YellowPages cold-sales lead scraper

This file embeds the pure logic of the three pipeline variants of the
scraper (`yp_5_janitor.py`, `yp_6_safety.py`, `yp_b2b_warehouse_scraper.py`)
as executable Lean definitions and proves properties of them.

Modelling conventions:
* Python strings are Lean `String`s; `str.strip()` is `pyStrip`,
  `str.lower()` is `pyLower` (ASCII range), substring containment
  (`pat in s`) is `containsSub`.
* `hashlib.md5(...).hexdigest()` is a full MD5 implementation over `Nat`
  byte lists (`md5Hex`), validated against the RFC 1321 test vectors.
* Browser-rendered data (result fragments, detail pages, company websites)
  enters as explicit environment structures: a `Listing` carries the
  selector results a result fragment would yield, a `SitePage`/`DetailEnv`
  carries the mailto/regex candidate strings the DOM scans and
  `re` searches would produce.  The cascade/branching logic that consumes
  them is translated line by line from the source.
* Each per-task page loop (`scrape_search` / `scrape`) becomes a
  structurally recursive function over the list of remaining page numbers,
  threading the local dedup scope, the accumulated leads and the
  blocked counter exactly as the Python loop does; I/O effects are
  recorded in a `LoopRes` trace (pages fetched, navigation attempts,
  retry sleeps, persistence snapshots).
-/

/-- ASCII whitespace recognised by Python's `str.strip()`. -/
def isPyWs (c : Char) : Bool :=
  c = ' ' || c = '\t' || c = '\n' || c = '\r' || c = '\x0b' || c = '\x0c'

/-- Python `str.strip()` (ASCII whitespace). -/
def pyStrip (s : String) : String :=
  String.mk (((s.toList.dropWhile isPyWs).reverse.dropWhile isPyWs).reverse)

/-- Python `str.lower()` (ASCII range). -/
def pyLower (s : String) : String :=
  String.mk (s.toList.map Char.toLower)

/-- Prefix test on character lists (`==` on each position). -/
def charsPrefixOf : List Char → List Char → Bool
  | [], _ => true
  | _ :: _, [] => false
  | p :: ps, c :: cs => p = c && charsPrefixOf ps cs

/-- Contiguous-sublist test on character lists. -/
def charsSub (pat : List Char) : List Char → Bool
  | [] => pat.isEmpty
  | c :: cs => charsPrefixOf pat (c :: cs) || charsSub pat cs

/-- Python's substring containment `pat in s`. -/
def containsSub (pat s : String) : Bool :=
  charsSub pat.toList s.toList

/-- 32-bit left rotation. -/
def rotl32 (x n : Nat) : Nat :=
  ((x <<< n) ||| (x >>> (32 - n))) % 4294967296

/-- 32-bit bitwise complement. -/
def compl32 (x : Nat) : Nat := 4294967295 - x % 4294967296

/-- MD5 per-round shift amounts (RFC 1321). -/
def md5S : List Nat :=
  [7, 12, 17, 22, 7, 12, 17, 22, 7, 12, 17, 22, 7, 12, 17, 22,
   5, 9, 14, 20, 5, 9, 14, 20, 5, 9, 14, 20, 5, 9, 14, 20,
   4, 11, 16, 23, 4, 11, 16, 23, 4, 11, 16, 23, 4, 11, 16, 23,
   6, 10, 15, 21, 6, 10, 15, 21, 6, 10, 15, 21, 6, 10, 15, 21]

/-- MD5 sine-derived round constants (RFC 1321). -/
def md5K : List Nat :=
  [0xd76aa478, 0xe8c7b756, 0x242070db, 0xc1bdceee,
   0xf57c0faf, 0x4787c62a, 0xa8304613, 0xfd469501,
   0x698098d8, 0x8b44f7af, 0xffff5bb1, 0x895cd7be,
   0x6b901122, 0xfd987193, 0xa679438e, 0x49b40821,
   0xf61e2562, 0xc040b340, 0x265e5a51, 0xe9b6c7aa,
   0xd62f105d, 0x02441453, 0xd8a1e681, 0xe7d3fbc8,
   0x21e1cde6, 0xc33707d6, 0xf4d50d87, 0x455a14ed,
   0xa9e3e905, 0xfcefa3f8, 0x676f02d9, 0x8d2a4c8a,
   0xfffa3942, 0x8771f681, 0x6d9d6122, 0xfde5380c,
   0xa4beea44, 0x4bdecfa9, 0xf6bb4b60, 0xbebfbc70,
   0x289b7ec6, 0xeaa127fa, 0xd4ef3085, 0x04881d05,
   0xd9d4d039, 0xe6db99e5, 0x1fa27cf8, 0xc4ac5665,
   0xf4292244, 0x432aff97, 0xab9423a7, 0xfc93a039,
   0x655b59c3, 0x8f0ccc92, 0xffeff47d, 0x85845dd1,
   0x6fa87e4f, 0xfe2ce6e0, 0xa3014314, 0x4e0811a1,
   0xf7537e82, 0xbd3af235, 0x2ad7d2bb, 0xeb86d391]

/-- Little-endian encoding of `x` into `n` bytes. -/
def toLE : Nat → Nat → List Nat
  | 0, _ => []
  | n + 1, x => (x % 256) :: toLE n (x / 256)

/-- Little-endian decoding of a byte list. -/
def fromLE : List Nat → Nat
  | [] => 0
  | b :: r => b % 256 + 256 * fromLE r

/-- MD5 message padding: `0x80`, zeros to 56 mod 64, 8-byte bit length. -/
def md5pad (msg : List Nat) : List Nat :=
  let z := (120 - (msg.length + 1) % 64) % 64
  msg ++ 128 :: List.replicate z 0 ++ toLE 8 (8 * msg.length)

/-- One 64-byte MD5 chunk transformation. -/
def md5chunk (chunk : List Nat) (h : Nat × Nat × Nat × Nat) : Nat × Nat × Nat × Nat :=
  let M := fun g => fromLE ((chunk.drop (4 * g)).take 4)
  let step := fun (st : Nat × Nat × Nat × Nat) (i : Nat) =>
    let (a, b, c, d) := st
    let fg : Nat × Nat :=
      if i < 16 then ((b &&& c) ||| (compl32 b &&& d), i)
      else if i < 32 then ((d &&& b) ||| (compl32 d &&& c), (5 * i + 1) % 16)
      else if i < 48 then (b ^^^ c ^^^ d, (3 * i + 5) % 16)
      else (c ^^^ (b ||| compl32 d), (7 * i) % 16)
    let f := (fg.1 + a + md5K.getD i 0 + M fg.2) % 4294967296
    (d, (b + rotl32 f (md5S.getD i 0)) % 4294967296, b, c)
  let r := (List.range 64).foldl step h
  ((h.1 + r.1) % 4294967296, (h.2.1 + r.2.1) % 4294967296,
    (h.2.2.1 + r.2.2.1) % 4294967296, (h.2.2.2 + r.2.2.2) % 4294967296)

/-- The 16-byte MD5 digest of a byte list. -/
def md5digest (msg : List Nat) : List Nat :=
  let padded := md5pad msg
  let chunks := (List.range (padded.length / 64)).map
    (fun i => (padded.drop (64 * i)).take 64)
  let h := chunks.foldl (fun st ch => md5chunk ch st)
    (0x67452301, 0xefcdab89, 0x98badcfe, 0x10325476)
  toLE 4 h.1 ++ toLE 4 h.2.1 ++ toLE 4 h.2.2.1 ++ toLE 4 h.2.2.2

/-- Lowercase hexadecimal digit. -/
def hexDigit : Nat → Char
  | 0 => '0' | 1 => '1' | 2 => '2' | 3 => '3'
  | 4 => '4' | 5 => '5' | 6 => '6' | 7 => '7'
  | 8 => '8' | 9 => '9' | 10 => 'a' | 11 => 'b'
  | 12 => 'c' | 13 => 'd' | 14 => 'e' | _ => 'f'

/-- Hex string of a byte list (two digits per byte). -/
def bytesToHex (bs : List Nat) : List Char :=
  bs.foldr (fun b acc => hexDigit (b / 16) :: hexDigit (b % 16) :: acc) []

/-- UTF-8 encoding of one character (Python `str.encode()`). -/
def utf8Bytes (c : Char) : List Nat :=
  let n := c.toNat
  if n < 128 then [n]
  else if n < 2048 then [192 ||| (n >>> 6), 128 ||| (n &&& 63)]
  else if n < 65536 then
    [224 ||| (n >>> 12), 128 ||| ((n >>> 6) &&& 63), 128 ||| (n &&& 63)]
  else
    [240 ||| (n >>> 18), 128 ||| ((n >>> 12) &&& 63),
     128 ||| ((n >>> 6) &&& 63), 128 ||| (n &&& 63)]

/-- UTF-8 bytes of a string. -/
def strBytes (s : String) : List Nat :=
  (s.toList.map utf8Bytes).flatten

/-- `hashlib.md5(s.encode()).hexdigest()`. -/
def md5Hex (s : String) : String :=
  String.mk (bytesToHex (md5digest (strBytes s)))

/-- Python string slice `s[:n]`. -/
def strTake (s : String) (n : Nat) : String :=
  String.mk (s.toList.take n)

/-- `generate_lead_id` from `yp_5_janitor.py` (identical in
`yp_b2b_warehouse_scraper.py`): the first 12 hex characters of the MD5
digest of `strip(lower(name)) + "|" + strip(phone)`
(`str(company_name).lower().strip()` then `str(phone).strip()`). -/
def generate_lead_id (company_name phone : String) : String :=
  strTake (md5Hex (pyStrip (pyLower company_name) ++ "|" ++ pyStrip phone)) 12

/-- `gen_id` from `yp_6_safety.py`; its body is character-for-character the
same computation as `generate_lead_id`. -/
def gen_id (name phone : String) : String :=
  strTake (md5Hex (pyStrip (pyLower name) ++ "|" ++ pyStrip phone)) 12

/-- `INVALID_WEBSITE_PATTERNS` from `yp_5_janitor.py`; the local
`invalid_patterns` list inside `yp_6_safety.py`'s `is_valid_website` has
exactly the same seven entries. -/
def INVALID_WEBSITE_PATTERNS : List String :=
  ["localsearch.com", "yellowpages.com", "yp.com", "superpages.com",
   "whitepages.com", "manta.com", "yelp.com"]

/-- `is_valid_website` from `yp_5_janitor.py`: rejects empty,
whitespace-only and the "N/A" sentinel, then rejects any URL whose
lowercased stripped form contains a blacklisted fragment. -/
def is_valid_website (url : String) : Bool :=
  if url = "" || pyStrip url = "" || url = "N/A" then false
  else !(INVALID_WEBSITE_PATTERNS.any (fun pat => containsSub pat (pyStrip (pyLower url))))

/-- `is_valid_website` from `yp_6_safety.py`: same blacklist, but the guard
only rejects empty and whitespace-only strings (no "N/A" case). -/
def is_valid_website_safety (url : String) : Bool :=
  if url = "" || pyStrip url = "" then false
  else !(INVALID_WEBSITE_PATTERNS.any (fun pat => containsSub pat (pyStrip (pyLower url))))

/-- `EMAIL_BLACKLIST` from `yp_5_janitor.py`. -/
def EMAIL_BLACKLIST : List String :=
  ["example.com", "domain.com", "email.com", "yoursite", "yourdomain",
   "sentry.io", "schema.org", "json", "wixpress", "wix.com",
   "googleapis", "google.com", "facebook", "twitter", "instagram",
   ".png", ".jpg", ".gif", ".svg", ".css", ".js",
   "yellowpages", "yp.com", "placeholder", "test.com",
   "wordpress", "squarespace", "shopify", "godaddy", "wufoo"]

/-- `EMAIL_BLACKLIST` from `yp_6_safety.py` (shorter list). -/
def EMAIL_BLACKLIST_SAFETY : List String :=
  ["example.com", "domain.com", "sentry.io", "schema.org", "wixpress",
   "googleapis", "yellowpages", ".png", ".jpg", ".css", ".js"]

/-- `is_valid_email` from `yp_5_janitor.py`. -/
def is_valid_email (email : String) : Bool :=
  if email = "" || !(containsSub "@" email) then false
  else !(EMAIL_BLACKLIST.any (fun x => containsSub x (pyLower email)))

/-- `valid_email` from `yp_6_safety.py`. -/
def valid_email (e : String) : Bool :=
  e ≠ "" && containsSub "@" e &&
    !(EMAIL_BLACKLIST_SAFETY.any (fun x => containsSub x (pyLower e)))

/-- One rendered result fragment (a `.result` subtree), as the selector
queries in `parse_listing` would see it: each field is the outcome of one
`select_one` / attribute access.  `trackVisitWebsite = some attr` models a
`.track-visit-website` element whose `href` attribute is `attr.href`
(`attr.href = none` models a present element without an `href`, on which
`listing["href"]` raises `KeyError`). -/
structure Attr where
  href : Option String
deriving DecidableEq

structure Listing where
  nameSpanText : Option String
  nameText : Option String
  nameHref : Option String
  trackVisitWebsite : Option Attr
  phonesText : Option String
  streetText : Option String
  localityText : Option String
  categoriesText : Option String
deriving DecidableEq

/-- One scraped business record; fields common to the three variants'
lead dictionaries (presentation-only columns are omitted). -/
structure Lead where
  company : String
  phone : String
  email : String
  website : String
  address : String
  source : String
  category : String
  leadId : String
deriving DecidableEq

/-- The website URL `parse_listing` extracts: `""` when there is no
`.track-visit-website` element, `none` when the element exists but has no
`href` (the `KeyError` case). -/
def extractedWebsite (l : Listing) : Option String :=
  match l.trackVisitWebsite with
  | none => some ""
  | some attr => attr.href

/-- `" ".join(filter(None, [street, locality]))`. -/
def joinAddress (street locality : String) : String :=
  String.intercalate " " ([street, locality].filter (fun s => s ≠ ""))

/-- The company name `parse_listing` extracts: text of
`.business-name span`, falling back to `.business-name`, stripped. -/
def extractedCompany (l : Listing) : String :=
  match l.nameSpanText with
  | some t => pyStrip t
  | none =>
    match l.nameText with
    | some t => pyStrip t
    | none => ""

/-- The detail-page link `parse_listing` builds from `.business-name`'s
`href`. -/
def extractedDetailLink (l : Listing) : String :=
  match l.nameHref with
  | some h => if h ≠ "" then "https://www.yellowpages.com" ++ h else ""
  | none => ""

/-- `parse_listing` from `yp_5_janitor.py`: rejects an empty company name,
then extracts the website URL and rejects the listing unless it passes
`is_valid_website`; any structural extraction error (the `KeyError` on a
`href`-less website element) also yields `None`. -/
def parse_listing (l : Listing) : Option Lead :=
  let company := extractedCompany l
  if company = "" then none
  else
    match extractedWebsite l with
    | none => none
    | some website =>
      if !(is_valid_website website) then none
      else
        let phone := (l.phonesText.map pyStrip).getD ""
        let address := joinAddress ((l.streetText.map pyStrip).getD "")
          ((l.localityText.map pyStrip).getD "")
        some
          { company := company
            phone := phone
            email := ""
            website := website
            address := address
            source := extractedDetailLink l
            category := (l.categoriesText.map pyStrip).getD ""
            leadId := generate_lead_id company phone }

/-- `parse_listing` from `yp_6_safety.py`: same shape as the janitor
variant, but the filter applied is the safety file's `is_valid_website`
and the identity comes from `gen_id`. -/
def parse_listing_safety (l : Listing) : Option Lead :=
  let company := extractedCompany l
  if company = "" then none
  else
    match extractedWebsite l with
    | none => none
    | some website =>
      if !(is_valid_website_safety website) then none
      else
        let phone := (l.phonesText.map pyStrip).getD ""
        let address := joinAddress ((l.streetText.map pyStrip).getD "")
          ((l.localityText.map pyStrip).getD "")
        some
          { company := company
            phone := phone
            email := ""
            website := website
            address := address
            source := extractedDetailLink l
            category := (l.categoriesText.map pyStrip).getD ""
            leadId := gen_id company phone }

/-- `parse_listing` from `yp_b2b_warehouse_scraper.py`: rejects only an
empty company name or a structural extraction error — it applies **no**
website filter (the file does not even define one). -/
def parse_listing_wh (l : Listing) : Option Lead :=
  let company := extractedCompany l
  if company = "" then none
  else
    match extractedWebsite l with
    | none => none
    | some website =>
      let phone := (l.phonesText.map pyStrip).getD ""
      let address := joinAddress ((l.streetText.map pyStrip).getD "")
        ((l.localityText.map pyStrip).getD "")
      some
        { company := company
          phone := phone
          email := ""
          website := website
          address := address
          source := extractedDetailLink l
          category := (l.categoriesText.map pyStrip).getD ""
          leadId := generate_lead_id company phone }

/-- The rows `save_leads_to_excel` (janitor) actually writes: it re-filters
to leads whose website still passes `is_valid_website` before writing. -/
def saveRowsJan (leads : List Lead) : List Lead :=
  leads.filter (fun l => is_valid_website l.website)

/-- The rows `save_xlsx` (safety) actually writes: re-filtered through the
safety `is_valid_website`. -/
def saveRowsSafety (leads : List Lead) : List Lead :=
  leads.filter (fun l => is_valid_website_safety l.website)

/-- The rows `save_leads_to_excel` (warehouse) writes: every accumulated
lead — this variant performs no website filtering on save. -/
def saveRowsWh (leads : List Lead) : List Lead :=
  leads

/-- Per-page dedup filter of `scrape_search` in `yp_5_janitor.py` (and,
identically, `yp_b2b_warehouse_scraper.py`): each listing is accepted iff
its `_lead_id` is in neither the global scope nor the local scope, and on
acceptance the id is added to the local scope **before** the next listing
of the page is considered. -/
def dedupImmediate (existing : List String) :
    List String → List Lead → List Lead × List String
  | localIds, [] => ([], localIds)
  | localIds, l :: rest =>
    if !(existing.contains l.leadId) && !(localIds.contains l.leadId) then
      let r := dedupImmediate existing (l.leadId :: localIds) rest
      (l :: r.1, r.2)
    else
      dedupImmediate existing localIds rest

/-- Per-page dedup filter of `scrape` in `yp_6_safety.py`: the whole page
is filtered against the scopes as they stood at the start of the page
(`new_lst = [l for l in listings if ...]`), and only afterwards are the
accepted ids added to the local scope (`for l in new_lst: local_ids.add`). -/
def dedupSafety (existing localIds : List String) (listings : List Lead) :
    List Lead × List String :=
  let newLst := listings.filter
    (fun l => !(existing.contains l.leadId) && !(localIds.contains l.leadId))
  (newLst, newLst.map (fun l => l.leadId) ++ localIds)

/-- A representative rendered result fragment for a business with an
independently-owned website (passes both website filters). -/
def sampleListing : Listing :=
  { nameSpanText := some "Acme Supply Co"
    nameText := none
    nameHref := some "/acme-supply"
    trackVisitWebsite := some { href := some "https://acme-supply.com" }
    phonesText := some "555-0100"
    streetText := some "1 Main St"
    localityText := some "Queens NY"
    categoriesText := some "Wholesale" }

/-- A rendered result fragment whose website URL is a blacklisted
directory link (fails the Website Filter of both variants that have one). -/
def listingYP : Listing :=
  { nameSpanText := some "Acme Supply Co"
    nameText := none
    nameHref := some "/acme-supply"
    trackVisitWebsite := some { href := some "https://www.yellowpages.com/acme-supply" }
    phonesText := some "555-0100"
    streetText := some "1 Main St"
    localityText := some "Queens NY"
    categoriesText := some "Wholesale" }

lemma toLE_length (n x : Nat) : (toLE n x).length = n := by
  induction n generalizing x with
  | zero => rfl
  | succ k ih => simp [toLE, ih]

lemma md5digest_length (m : List Nat) : (md5digest m).length = 16 := by
  simp [md5digest, toLE_length]

lemma bytesToHex_length (bs : List Nat) : (bytesToHex bs).length = 2 * bs.length := by
  induction bs with
  | nil => rfl
  | cons b r ih =>
    have h : bytesToHex (b :: r) = hexDigit (b / 16) :: hexDigit (b % 16) :: bytesToHex r := rfl
    rw [h]
    simp [ih]
    omega

lemma generate_lead_id_length (n p : String) : (generate_lead_id n p).length = 12 := by
  have h32 : (md5Hex (pyStrip (pyLower n) ++ "|" ++ pyStrip p)).toList.length = 32 := by
    show (bytesToHex (md5digest _)).length = 32
    rw [bytesToHex_length, md5digest_length]
  show ((md5Hex (pyStrip (pyLower n) ++ "|" ++ pyStrip p)).toList.take 12).length = 12
  rw [List.length_take, h32]
  rfl

/-- Accepted leads of the immediate-add dedup filter are fresh with
respect to both scopes as they stood when the lead was considered; in
particular fresh with respect to the page-initial scopes. -/
lemma dedupImmediate_fresh (existing : List String) :
    ∀ (ls : List Lead) (localIds : List String),
      ∀ l ∈ (dedupImmediate existing localIds ls).1,
        existing.contains l.leadId = false ∧ localIds.contains l.leadId = false := by
  intro ls
  induction ls with
  | nil => intro localIds l hl; simp [dedupImmediate] at hl
  | cons hd tl ih =>
    intro localIds l hl
    by_cases hc : (!(existing.contains hd.leadId) && !(localIds.contains hd.leadId)) = true
    · rw [dedupImmediate, if_pos hc] at hl
      simp only [List.mem_cons] at hl
      rcases hl with rfl | hl
      · simp only [Bool.and_eq_true, Bool.not_eq_true'] at hc
        exact ⟨hc.1, hc.2⟩
      · have := ih (hd.leadId :: localIds) l hl
        refine ⟨this.1, ?_⟩
        have h2 := this.2
        simp only [List.contains_cons, Bool.or_eq_false_iff] at h2
        exact h2.2
    · rw [dedupImmediate, if_neg hc] at hl
      exact ih localIds l hl

/-- The local scope returned by the immediate-add dedup filter only
grows. -/
lemma dedupImmediate_mono (existing : List String) :
    ∀ (ls : List Lead) (localIds : List String) (x : String),
      localIds.contains x = true →
      (dedupImmediate existing localIds ls).2.contains x = true := by
  intro ls
  induction ls with
  | nil => intro localIds x hx; simpa [dedupImmediate] using hx
  | cons hd tl ih =>
    intro localIds x hx
    by_cases hc : (!(existing.contains hd.leadId) && !(localIds.contains hd.leadId)) = true
    · rw [dedupImmediate, if_pos hc]
      refine ih _ x ?_
      have hx' : x ∈ localIds := by simpa using hx
      simp [List.contains_cons, hx']
    · rw [dedupImmediate, if_neg hc]
      exact ih _ x hx

/-- Every lead accepted by the immediate-add dedup filter has its identity
registered in the final local scope. -/
lemma dedupImmediate_registered (existing : List String) :
    ∀ (ls : List Lead) (localIds : List String),
      ∀ l ∈ (dedupImmediate existing localIds ls).1,
        (dedupImmediate existing localIds ls).2.contains l.leadId = true := by
  intro ls
  induction ls with
  | nil => intro localIds l hl; simp [dedupImmediate] at hl
  | cons hd tl ih =>
    intro localIds l hl
    by_cases hc : (!(existing.contains hd.leadId) && !(localIds.contains hd.leadId)) = true
    · rw [dedupImmediate, if_pos hc] at hl ⊢
      simp only [List.mem_cons] at hl
      rcases hl with rfl | hl
      · exact dedupImmediate_mono existing tl _ l.leadId (by simp [List.contains_cons])
      · exact ih _ l hl
    · rw [dedupImmediate, if_neg hc] at hl ⊢
      exact ih _ l hl

/-- No identity is accepted twice by the immediate-add dedup filter:
the accepted identities of one page are pairwise distinct. -/
lemma dedupImmediate_nodup (existing : List String) :
    ∀ (ls : List Lead) (localIds : List String),
      ((dedupImmediate existing localIds ls).1.map (fun l => l.leadId)).Nodup := by
  intro ls
  induction ls with
  | nil => intro localIds; simp [dedupImmediate]
  | cons hd tl ih =>
    intro localIds
    by_cases hc : (!(existing.contains hd.leadId) && !(localIds.contains hd.leadId)) = true
    · rw [dedupImmediate, if_pos hc]
      simp only [List.map_cons, List.nodup_cons]
      refine ⟨?_, ih _⟩
      intro hmem
      rcases List.mem_map.mp hmem with ⟨l, hl, hid⟩
      have := (dedupImmediate_fresh existing tl (hd.leadId :: localIds) l hl).2
      rw [hid] at this
      simp [List.contains_cons] at this
    · rw [dedupImmediate, if_neg hc]
      exact ih localIds

/-- Completeness of the immediate-add dedup filter: an identity that is on
the page and fresh with respect to both initial scopes is accepted (at
least once). -/
lemma dedupImmediate_complete (existing : List String) :
    ∀ (ls : List Lead) (localIds : List String), ∀ l ∈ ls,
      existing.contains l.leadId = false → localIds.contains l.leadId = false →
      ∃ l', l' ∈ (dedupImmediate existing localIds ls).1 ∧ l'.leadId = l.leadId := by
  intro ls
  induction ls with
  | nil => intro localIds l hl; simp at hl
  | cons hd tl ih =>
    intro localIds l hl hex hloc
    by_cases hc : (!(existing.contains hd.leadId) && !(localIds.contains hd.leadId)) = true
    · rw [dedupImmediate, if_pos hc]
      simp only [List.mem_cons] at hl
      rcases hl with rfl | hl
      · exact ⟨l, by simp, rfl⟩
      · by_cases hid : l.leadId = hd.leadId
        · exact ⟨hd, by simp, hid.symm⟩
        · have hloc' : (hd.leadId :: localIds).contains l.leadId = false := by
            simp only [List.contains_cons, Bool.or_eq_false_iff]
            refine ⟨?_, hloc⟩
            simpa using hid
          rcases ih _ l hl hex hloc' with ⟨l', hl', hid'⟩
          exact ⟨l', by simp [hl'], hid'⟩
    · rw [dedupImmediate, if_neg hc]
      simp only [List.mem_cons] at hl
      rcases hl with rfl | hl
      · exact absurd (by rw [hex, hloc]; rfl) hc
      · exact ih localIds l hl hex hloc

/-- Accepted leads of the safety variant's batch dedup filter are fresh
with respect to both page-initial scopes, and their identities are all
registered in the returned local scope. -/
lemma dedupSafety_fresh (existing localIds : List String) (ls : List Lead) :
    ∀ l ∈ (dedupSafety existing localIds ls).1,
      (existing.contains l.leadId = false ∧ localIds.contains l.leadId = false) ∧
        (dedupSafety existing localIds ls).2.contains l.leadId = true := by
  intro l hl
  have hmem := List.mem_filter.mp hl
  constructor
  · have := hmem.2
    simp only [Bool.and_eq_true, Bool.not_eq_true'] at this
    exact this
  · show ((dedupSafety existing localIds ls).1.map (fun l => l.leadId) ++ localIds).contains l.leadId = true
    have hmem2 : l.leadId ∈ (dedupSafety existing localIds ls).1.map (fun l => l.leadId) ++ localIds :=
      List.mem_append_left _ (List.mem_map.mpr ⟨l, hl, rfl⟩)
    simpa using hmem2

/-- A concrete lead record used to instantiate dedup statements. -/
def cLeadA : Lead :=
  { company := "Acme Supply Co"
    phone := "555-0100"
    email := ""
    website := "https://acme-supply.com"
    address := "1 Main St Queens NY"
    source := "https://www.yellowpages.com/acme-supply"
    category := "Wholesale"
    leadId := generate_lead_id "Acme Supply Co" "555-0100" }

/-- C3: the identity function is a pure total Lean function of the
(name, phone) pair alone; it is invariant under case and edge-whitespace
changes of the name (and edge-whitespace changes of the phone), the safety
variant's `gen_id` computes the very same digest, and the result is the
12-character prefix of the MD5 hex digest of
`strip(lower(name)) + "|" + strip(phone)`. -/
theorem c3_identity_normalized (n1 p1 n2 p2 : String)
    (hn : pyStrip (pyLower n1) = pyStrip (pyLower n2))
    (hp : pyStrip p1 = pyStrip p2) :
    generate_lead_id n1 p1 = generate_lead_id n2 p2 ∧
    gen_id n1 p1 = generate_lead_id n1 p1 ∧
    generate_lead_id n1 p1 =
      strTake (md5Hex (pyStrip (pyLower n1) ++ "|" ++ pyStrip p1)) 12 ∧
    (generate_lead_id n1 p1).length = 12 := by
  refine ⟨?_, rfl, rfl, generate_lead_id_length n1 p1⟩
  unfold generate_lead_id
  rw [hn, hp]

/-- Witness for C3 at concrete inputs: a name differing only in case and
edge whitespace yields the same identity. -/
theorem c3_identity_normalized_witness :
    pyStrip (pyLower "  Acme Supply CO ") = pyStrip (pyLower "acme supply co") ∧
    pyStrip "  555-0100 " = pyStrip "555-0100" ∧
    generate_lead_id "  Acme Supply CO " "  555-0100 " =
      generate_lead_id "acme supply co" "555-0100" :=
  ⟨by decide, by decide,
    (c3_identity_normalized "  Acme Supply CO " "  555-0100 "
      "acme supply co" "555-0100" (by decide) (by decide)).1⟩

/-- C9 (amended): the janitor filter rejects empty, whitespace-only and
"N/A" strings; both filters reject every URL whose lowercased stripped
form contains a blacklisted fragment and accept
`"https://example-business.com"`.  (The safety variant's guard has no
"N/A" case — see the counterexample.) -/
theorem c9_website_filter :
    (∀ url, pyStrip url = "" →
      is_valid_website url = false ∧ is_valid_website_safety url = false) ∧
    is_valid_website "N/A" = false ∧
    (∀ url pat, pat ∈ INVALID_WEBSITE_PATTERNS →
      containsSub pat (pyStrip (pyLower url)) = true →
      is_valid_website url = false ∧ is_valid_website_safety url = false) ∧
    is_valid_website "https://example-business.com" = true ∧
    is_valid_website_safety "https://example-business.com" = true := by
  refine ⟨?_, by decide, ?_, by decide, by decide⟩
  · intro url h
    constructor
    · simp [is_valid_website, h]
    · simp [is_valid_website_safety, h]
  · intro url pat hpat hc
    have hany : INVALID_WEBSITE_PATTERNS.any
        (fun p => containsSub p (pyStrip (pyLower url))) = true :=
      List.any_eq_true.mpr ⟨pat, hpat, hc⟩
    constructor
    · unfold is_valid_website
      by_cases hif : (url = "" || pyStrip url = "" || url = "N/A") = true
      · rw [if_pos hif]
      · rw [if_neg hif]
        simp [hany]
    · unfold is_valid_website_safety
      by_cases hif : (url = "" || pyStrip url = "") = true
      · rw [if_pos hif]
      · rw [if_neg hif]
        simp [hany]

/-- Witness for C9 at concrete inputs: a whitespace-only URL is rejected
by the janitor filter and a yelp.com URL is rejected by the safety
filter. -/
theorem c9_website_filter_witness :
    is_valid_website "   " = false ∧
    is_valid_website_safety "https://www.yelp.com/biz/acme" = false := by
  obtain ⟨hempty, -, hpat, -, -⟩ := c9_website_filter
  exact ⟨(hempty "   " (by decide)).1,
    (hpat "https://www.yelp.com/biz/acme" "yelp.com" (by decide) (by decide)).2⟩

/-- C9 counterexample: the safety variant's `is_valid_website` accepts the
sentinel string "N/A" (its guard only rejects empty and whitespace-only
strings), contradicting the claim that every variant that defines the
filter rejects "N/A". -/
theorem c9_counterexample : is_valid_website_safety "N/A" = true := by decide

/-- C2 (amended): for the janitor/warehouse per-page dedup filter, every
accepted lead is fresh with respect to both page-initial scopes, its
identity is registered in the returned local scope, no identity is
accepted twice on one page (immediate add), and every fresh identity on
the page is accepted; for the safety variant's batch filter, acceptance
still requires absence from both page-initial scopes and accepted
identities are registered in the returned local scope (so later pages are
deduplicated), but the same-page at-most-once property fails — see the
counterexample. -/
theorem c2_dedup_scopes (existing localIds : List String) (listings : List Lead) :
    (∀ l ∈ (dedupImmediate existing localIds listings).1,
      existing.contains l.leadId = false ∧ localIds.contains l.leadId = false ∧
        (dedupImmediate existing localIds listings).2.contains l.leadId = true) ∧
    ((dedupImmediate existing localIds listings).1.map (fun l => l.leadId)).Nodup ∧
    (∀ l ∈ listings, existing.contains l.leadId = false →
      localIds.contains l.leadId = false →
      ∃ l', l' ∈ (dedupImmediate existing localIds listings).1 ∧
        l'.leadId = l.leadId) ∧
    (∀ l ∈ (dedupSafety existing localIds listings).1,
      existing.contains l.leadId = false ∧ localIds.contains l.leadId = false ∧
        (dedupSafety existing localIds listings).2.contains l.leadId = true) := by
  refine ⟨?_, dedupImmediate_nodup existing listings localIds,
    dedupImmediate_complete existing listings localIds, ?_⟩
  · intro l hl
    obtain ⟨h1, h2⟩ := dedupImmediate_fresh existing listings localIds l hl
    exact ⟨h1, h2, dedupImmediate_registered existing listings localIds l hl⟩
  · intro l hl
    obtain ⟨⟨h1, h2⟩, h3⟩ := dedupSafety_fresh existing localIds listings l hl
    exact ⟨h1, h2, h3⟩

/-- Witness for C2 at concrete inputs: a fresh lead on a page is accepted
by the immediate-add filter. -/
theorem c2_dedup_scopes_witness :
    ∃ l', l' ∈ (dedupImmediate [] [] [cLeadA]).1 ∧ l'.leadId = cLeadA.leadId :=
  (c2_dedup_scopes [] [] [cLeadA]).2.2.1 cLeadA (by simp) (by decide) (by decide)

/-- C2 counterexample: in the safety variant the same business rendered
twice on one page is accepted twice — the batch filter consults only the
page-initial local scope, so both copies pass and the accepted identities
are not pairwise distinct. -/
theorem c2_counterexample :
    (dedupSafety [] [] ([sampleListing, sampleListing].filterMap parse_listing_safety)).1.length = 2 ∧
    ¬ ((dedupSafety [] [] ([sampleListing, sampleListing].filterMap parse_listing_safety)).1.map
        (fun l => l.leadId)).Nodup := by
  constructor
  · rfl
  · decide

/-- C1 (amended): in the janitor and safety variants `parse_listing`
returns `None` whenever the extracted website URL fails that variant's
Website Filter (in particular when it is empty or blacklisted), `None` on
the structural `KeyError` case in all three variants, and the janitor and
safety save paths re-filter so that no persisted row fails the filter.
The warehouse variant applies no website filter — see the
counterexample. -/
theorem c1_parse_filters (l : Listing) (w : String) :
    (extractedWebsite l = some w → is_valid_website w = false →
      parse_listing l = none) ∧
    (extractedWebsite l = some w → is_valid_website_safety w = false →
      parse_listing_safety l = none) ∧
    (extractedWebsite l = none →
      parse_listing l = none ∧ parse_listing_safety l = none ∧
        parse_listing_wh l = none) ∧
    (∀ leads lead, lead ∈ saveRowsJan leads → is_valid_website lead.website = true) ∧
    (∀ leads lead, lead ∈ saveRowsSafety leads →
      is_valid_website_safety lead.website = true) := by
  refine ⟨?_, ?_, ?_, ?_, ?_⟩
  · intro hw hv
    by_cases hcomp : extractedCompany l = ""
    · simp [parse_listing, hcomp]
    · simp [parse_listing, hcomp, hw, hv]
  · intro hw hv
    by_cases hcomp : extractedCompany l = ""
    · simp [parse_listing_safety, hcomp]
    · simp [parse_listing_safety, hcomp, hw, hv]
  · intro hw
    refine ⟨?_, ?_, ?_⟩
    · by_cases hcomp : extractedCompany l = ""
      · simp [parse_listing, hcomp]
      · simp [parse_listing, hcomp, hw]
    · by_cases hcomp : extractedCompany l = ""
      · simp [parse_listing_safety, hcomp]
      · simp [parse_listing_safety, hcomp, hw]
    · by_cases hcomp : extractedCompany l = ""
      · simp [parse_listing_wh, hcomp]
      · simp [parse_listing_wh, hcomp, hw]
  · intro leads lead hmem
    exact (List.mem_filter.mp hmem).2
  · intro leads lead hmem
    exact (List.mem_filter.mp hmem).2

/-- Witness for C1 at concrete inputs: a listing whose website link is a
blacklisted yellowpages.com URL is rejected at parse time by the janitor
and safety parsers. -/
theorem c1_parse_filters_witness :
    parse_listing listingYP = none ∧ parse_listing_safety listingYP = none := by
  obtain ⟨hjan, hsaf, -, -, -⟩ :=
    c1_parse_filters listingYP "https://www.yellowpages.com/acme-supply"
  exact ⟨hjan (by decide) (by decide), hsaf (by decide) (by decide)⟩

/-- C1 counterexample: the warehouse variant's `parse_listing`
materializes a Lead from the very same blacklisted-website fragment (its
website URL fails the Website Filter), and the warehouse save path keeps
the row — so in that variant a Lead with a blacklisted website does reach
the Output Artifact, contradicting the claim for "each of the three
pipeline variants". -/
theorem c1_counterexample :
    ((parse_listing_wh listingYP).map (fun l => is_valid_website l.website)) = some false ∧
    (saveRowsWh ((parse_listing_wh listingYP).toList)).length = 1 := by
  exact ⟨rfl, rfl⟩

/-- One fetched page (company website root or contact page), as the email
extraction code observes it: whether `driver.get` raised, the page title,
the first `mailto:` regex capture (if any), and the email-shaped tokens a
`re.findall` over the page source would yield, in order. -/
structure SitePage where
  loadFails : Bool
  title : String
  mailto : Option String
  textEmails : List String

/-- A company website as an environment: its root page and the page
served at each contact path. -/
structure WebsiteEnv where
  root : SitePage
  byPath : String → SitePage

/-- The mailto-then-regex scan both website extractors run on one page,
with the janitor validator (`email = m.group(1).strip()` then
`is_valid_email(email)`). -/
def pageScanJan (p : SitePage) : Option String :=
  match p.mailto with
  | some m =>
    if is_valid_email (pyStrip m) then some (pyStrip m)
    else p.textEmails.find? (fun e => is_valid_email e)
  | none => p.textEmails.find? (fun e => is_valid_email e)

/-- The safety variant's page scan: validity is checked on the raw capture
(`valid_email(m.group(1))`) and the stripped capture is returned. -/
def pageScanSafety (p : SitePage) : Option String :=
  match p.mailto with
  | some m =>
    if valid_email m then some (pyStrip m)
    else p.textEmails.find? (fun e => valid_email e)
  | none => p.textEmails.find? (fun e => valid_email e)

/-- `contact_paths` in `extract_email_from_website` (janitor). -/
def CONTACT_PATHS : List String :=
  ["/contact", "/contact-us", "/about", "/about-us", "/contactus"]

/-- The contact-path list in `get_email_from_site` (safety). -/
def CONTACT_PATHS_SAFETY : List String := ["/contact", "/contact-us", "/about"]

/-- The contact-page loop of `extract_email_from_website` (janitor): a
page whose load raises is skipped, otherwise the first valid hit is
returned; no hit anywhere yields the empty string. -/
def scanContactsJan (env : String → SitePage) : List String → String
  | [] => ""
  | path :: rest =>
    let p := env path
    if p.loadFails then scanContactsJan env rest
    else
      match pageScanJan p with
      | some e => e
      | none => scanContactsJan env rest

/-- The contact-page loop of `get_email_from_site` (safety). -/
def scanContactsSafety (env : String → SitePage) : List String → String
  | [] => ""
  | path :: rest =>
    let p := env path
    if p.loadFails then scanContactsSafety env rest
    else
      match pageScanSafety p with
      | some e => e
      | none => scanContactsSafety env rest

/-- `extract_email_from_website` from `yp_5_janitor.py`: bail out on a
missing or filter-failing URL, a failing root load, or an error-page
title; otherwise scan the root page and then the five contact paths. -/
def extract_email_from_website (website_url : String) (env : WebsiteEnv) : String :=
  if website_url = "" || !(is_valid_website website_url) then ""
  else if env.root.loadFails then ""
  else if ["404", "not found", "error", "denied"].any
      (fun x => containsSub x (pyLower env.root.title)) then ""
  else
    match pageScanJan env.root with
    | some e => e
    | none => scanContactsJan env.byPath CONTACT_PATHS

/-- `get_email_from_site` from `yp_6_safety.py`: same shape with the
safety filter and validator, three contact paths, and no error-title
check. -/
def get_email_from_site (url : String) (env : WebsiteEnv) : String :=
  if url = "" || !(is_valid_website_safety url) then ""
  else if env.root.loadFails then ""
  else
    match pageScanSafety env.root with
    | some e => e
    | none => scanContactsSafety env.byPath CONTACT_PATHS_SAFETY

/-- A fetched detail page, as `extract_email_from_detail` observes it:
whether the initial navigation raised, the raw page source (fed to the
block heuristics), the first `mailto:` regex capture, the `href`
attributes each of the three anchor scans would traverse, and the
email-shaped regex tokens of the page source. -/
structure DetailEnv where
  loadFails : Bool
  source : String
  mailto : Option String
  classHrefs : List String
  allMailtoHrefs : List String
  soupHrefs : List String
  textEmails : List String

/-- The per-anchor processing shared by methods 2-4: if the `href`
contains `mailto:`, strip the scheme, drop any query string, strip
whitespace and validate; an invalid candidate moves on to the next
anchor. -/
def hrefEmail (valid : String → Bool) (hrefs : List String) : Option String :=
  hrefs.findSome? (fun href =>
    if containsSub "mailto:" href then
      let e := pyStrip ((((href.replace "mailto:" "").splitOn "?").headD ""))
      if valid e then some e else none
    else none)

/-- The janitor block heuristic: the explicit blocked phrase, or the
CDN-challenge marker together with the trace-id marker. -/
def blockedJan (src : String) : Bool :=
  containsSub "you have been blocked" (pyLower src) ||
  (containsSub "cloudflare" (pyLower src) && containsSub "ray id" (pyLower src))

/-- The safety block heuristic: it greps for the bare word "blocked". -/
def blockedSafety (src : String) : Bool :=
  containsSub "blocked" (pyLower src) ||
  (containsSub "cloudflare" (pyLower src) && containsSub "ray id" (pyLower src))

/-- `extract_email_from_detail` from `yp_5_janitor.py`.  A raising
navigation is caught by the outer `try` and yields `""`.  On a blocked
page: fall through to the company website when it passes the Website
Filter, report the substitute email if one is found, else the blocked
sentinel.  Otherwise run methods 1-5 in order and finally the website
fallback. -/
def mailtoScanJan (mo : Option String) : Option String :=
  match mo with
  | some m => if is_valid_email (pyStrip m) then some (pyStrip m) else none
  | none => none

/-- The source-order mailto/regex method chain of the janitor detail
cascade (methods 1-5). -/
def detailChainJan (d : DetailEnv) : Option String :=
  mailtoScanJan d.mailto <|> hrefEmail is_valid_email d.classHrefs <|>
    hrefEmail is_valid_email d.allMailtoHrefs <|>
    hrefEmail is_valid_email d.soupHrefs <|>
    d.textEmails.find? (fun e => is_valid_email e)

/-- `extract_email_from_detail` from `yp_5_janitor.py`: see the module
doc comment above `mailtoScanJan` for the branch layout. -/
def extract_email_from_detail (website_url : String) (d : DetailEnv)
    (w : WebsiteEnv) : String :=
  if d.loadFails then ""
  else if blockedJan d.source then
    if website_url ≠ "" && is_valid_website website_url then
      let email := extract_email_from_website website_url w
      if email ≠ "" then email else "__BLOCKED__"
    else "__BLOCKED__"
  else
    match detailChainJan d with
    | some e => e
    | none =>
      if website_url ≠ "" && is_valid_website website_url then
        extract_email_from_website website_url w
      else ""

/-- `get_email` from `yp_6_safety.py`.  On a blocked page with a
filter-passing website it returns the website sub-cascade's result
directly (which may be `""`); the sentinel is reported only when no
usable website exists.  The non-blocked path runs the mailto and regex
methods, then the website fallback. -/
def mailtoScanSafety (mo : Option String) : Option String :=
  match mo with
  | some m => if valid_email m then some (pyStrip m) else none
  | none => none

/-- The mailto/regex method chain of `get_email` (safety). -/
def detailChainSafety (d : DetailEnv) : Option String :=
  mailtoScanSafety d.mailto <|> d.textEmails.find? (fun e => valid_email e)

/-- `get_email` from `yp_6_safety.py`: see the doc comment above
`mailtoScanSafety` for the branch layout. -/
def get_email (website : String) (d : DetailEnv) (w : WebsiteEnv) : String :=
  if d.loadFails then ""
  else if blockedSafety d.source then
    if website ≠ "" && is_valid_website_safety website then
      get_email_from_site website w
    else "__BLOCKED__"
  else
    match detailChainSafety d with
    | some e => e
    | none =>
      if website ≠ "" && is_valid_website_safety website then
        get_email_from_site website w
      else ""

lemma charsPrefixOf_iff : ∀ (p s : List Char), charsPrefixOf p s = true ↔ p <+: s := by
  intro p
  induction p with
  | nil => intro s; simp [charsPrefixOf]
  | cons x xs ih =>
    intro s
    cases s with
    | nil => simp [charsPrefixOf]
    | cons c cs =>
      rw [charsPrefixOf, List.cons_prefix_cons]
      simp [ih cs, and_comm]

lemma charsSub_iff (pat : List Char) : ∀ (s : List Char), charsSub pat s = true ↔ pat <:+: s := by
  intro s
  induction s with
  | nil =>
    rw [charsSub]
    simp [List.isEmpty_iff]
  | cons c cs ih =>
    rw [charsSub, List.infix_cons_iff]
    simp [charsPrefixOf_iff, ih]

lemma containsSub_mono {x t s : String} (h : containsSub x t = true)
    (hts : t.toList <:+: s.toList) : containsSub x s = true := by
  rw [containsSub, charsSub_iff] at h ⊢
  exact h.trans hts

lemma dropWhile_suffix' (p : Char → Bool) : ∀ (l : List Char), l.dropWhile p <:+ l := by
  intro l
  induction l with
  | nil => simp [List.dropWhile]
  | cons x xs ih =>
    rw [List.dropWhile]
    by_cases hx : p x = true
    · rw [hx]
      simp only [ite_true]
      exact ih.trans (List.suffix_cons x xs)
    · simp [hx]

lemma pyStrip_within (s : String) : (pyStrip s).toList <:+: s.toList := by
  show (((s.toList.dropWhile isPyWs).reverse.dropWhile isPyWs).reverse : List Char) <:+: s.toList
  have h1 : s.toList.dropWhile isPyWs <:+ s.toList := dropWhile_suffix' _ _
  have h2 : ((s.toList.dropWhile isPyWs).reverse.dropWhile isPyWs) <:+
      (s.toList.dropWhile isPyWs).reverse := dropWhile_suffix' _ _
  have h3 : ((s.toList.dropWhile isPyWs).reverse.dropWhile isPyWs).reverse <+:
      s.toList.dropWhile isPyWs := by
    have := List.reverse_prefix.mpr h2
    simpa using this
  exact h3.isInfix.trans h1.isInfix

lemma mem_dropWhile_of_mem (p : Char → Bool) {c : Char} (hc : p c = false) :
    ∀ (l : List Char), c ∈ l → c ∈ l.dropWhile p := by
  intro l
  induction l with
  | nil => intro h; simp at h
  | cons x xs ih =>
    intro h
    rw [List.dropWhile]
    by_cases hx : p x = true
    · rw [hx]
      simp only [ite_true]
      rcases List.mem_cons.mp h with rfl | h'
      · rw [hc] at hx; cases hx
      · exact ih h'
    · simp [hx, h]

lemma mem_pyStrip {c : Char} {s : String} (hc : isPyWs c = false)
    (h : c ∈ s.toList) : c ∈ (pyStrip s).toList := by
  show c ∈ ((s.toList.dropWhile isPyWs).reverse.dropWhile isPyWs).reverse
  rw [List.mem_reverse]
  apply mem_dropWhile_of_mem _ hc
  rw [List.mem_reverse]
  exact mem_dropWhile_of_mem _ hc _ h

lemma containsSub_singleton_iff {c : Char} {s : String} :
    containsSub (String.mk [c]) s = true ↔ c ∈ s.toList := by
  rw [containsSub, charsSub_iff]
  constructor
  · intro h
    exact h.mem (List.mem_singleton_self c)
  · intro h
    rcases List.append_of_mem h with ⟨l₁, l₂, hs⟩
    rw [hs]
    exact ⟨l₁, l₂, by simp⟩

lemma pyLower_pyStrip_within (m : String) :
    (pyLower (pyStrip m)).toList <:+: (pyLower m).toList := by
  show (pyStrip m).toList.map Char.toLower <:+: m.toList.map Char.toLower
  exact (pyStrip_within m).map Char.toLower

/-- `valid_email` is preserved by stripping edge whitespace: the `@` sign
is not whitespace so it survives, and any blacklisted fragment of the
stripped string is also a fragment of the original. -/
lemma valid_email_pyStrip {m : String} (h : valid_email m = true) :
    valid_email (pyStrip m) = true := by
  unfold valid_email at h ⊢
  simp only [Bool.and_eq_true, Bool.not_eq_true', decide_eq_true_eq] at h ⊢
  obtain ⟨⟨hne, hat⟩, hbl⟩ := h
  have hat' : containsSub "@" (pyStrip m) = true := by
    have hmem : '@' ∈ m.toList := by
      have : containsSub (String.mk ['@']) m = true := hat
      exact containsSub_singleton_iff.mp this
    have : '@' ∈ (pyStrip m).toList := mem_pyStrip (by decide) hmem
    exact containsSub_singleton_iff.mpr this
  refine ⟨⟨?_, hat'⟩, ?_⟩
  · intro hempty
    have : '@' ∈ (pyStrip m).toList := by
      have hmem : '@' ∈ m.toList := containsSub_singleton_iff.mp hat
      exact mem_pyStrip (by decide) hmem
    rw [hempty] at this
    simp at this
  · rw [List.any_eq_false] at hbl ⊢
    intro x hx
    intro hcon
    exact absurd (containsSub_mono hcon (pyLower_pyStrip_within m)) (by simpa using hbl x hx)

lemma pageScanJan_valid {p : SitePage} {e : String} (h : pageScanJan p = some e) :
    is_valid_email e = true := by
  unfold pageScanJan at h
  rcases hm : p.mailto with - | m <;> rw [hm] at h <;> dsimp only at h
  · exact List.find?_some h
  · by_cases hv : is_valid_email (pyStrip m) = true
    · rw [if_pos hv] at h
      cases h
      exact hv
    · rw [if_neg hv] at h
      exact List.find?_some h

lemma pageScanSafety_valid {p : SitePage} {e : String} (h : pageScanSafety p = some e) :
    valid_email e = true := by
  unfold pageScanSafety at h
  rcases hm : p.mailto with - | m <;> rw [hm] at h <;> dsimp only at h
  · exact List.find?_some h
  · by_cases hv : valid_email m = true
    · rw [if_pos hv] at h
      cases h
      exact valid_email_pyStrip hv
    · rw [if_neg hv] at h
      exact List.find?_some h

lemma scanContactsJan_ok (env : String → SitePage) :
    ∀ paths, scanContactsJan env paths = "" ∨
      is_valid_email (scanContactsJan env paths) = true := by
  intro paths
  induction paths with
  | nil => left; rfl
  | cons path rest ih =>
    rw [scanContactsJan]
    by_cases hf : (env path).loadFails = true
    · simpa [hf] using ih
    · simp only [hf, Bool.false_eq_true, ite_false]
      rcases hscan : pageScanJan (env path) with - | e
      · simpa using ih
      · right
        exact pageScanJan_valid hscan

lemma scanContactsSafety_ok (env : String → SitePage) :
    ∀ paths, scanContactsSafety env paths = "" ∨
      valid_email (scanContactsSafety env paths) = true := by
  intro paths
  induction paths with
  | nil => left; rfl
  | cons path rest ih =>
    rw [scanContactsSafety]
    by_cases hf : (env path).loadFails = true
    · simpa [hf] using ih
    · simp only [hf, Bool.false_eq_true, ite_false]
      rcases hscan : pageScanSafety (env path) with - | e
      · simpa using ih
      · right
        exact pageScanSafety_valid hscan

/-- Every result of the janitor website sub-cascade is either "not found"
or a validated email. -/
lemma extract_email_from_website_ok (u : String) (env : WebsiteEnv) :
    extract_email_from_website u env = "" ∨
      is_valid_email (extract_email_from_website u env) = true := by
  unfold extract_email_from_website
  by_cases h1 : (u = "" || !is_valid_website u) = true
  · simp [h1]
  · rw [if_neg h1]
    by_cases h2 : env.root.loadFails = true
    · simp [h2]
    · simp only [h2, Bool.false_eq_true, ite_false]
      by_cases h3 : (["404", "not found", "error", "denied"].any
          (fun x => containsSub x (pyLower env.root.title))) = true
      · simp [h3]
      · simp only [h3, Bool.false_eq_true, ite_false]
        rcases hscan : pageScanJan env.root with - | e
        · exact scanContactsJan_ok env.byPath CONTACT_PATHS
        · right
          exact pageScanJan_valid hscan

/-- Every result of the safety website sub-cascade is either "not found"
or a validated email. -/
lemma get_email_from_site_ok (u : String) (env : WebsiteEnv) :
    get_email_from_site u env = "" ∨
      valid_email (get_email_from_site u env) = true := by
  unfold get_email_from_site
  by_cases h1 : (u = "" || !is_valid_website_safety u) = true
  · simp [h1]
  · rw [if_neg h1]
    by_cases h2 : env.root.loadFails = true
    · simp [h2]
    · simp only [h2, Bool.false_eq_true, ite_false]
      rcases hscan : pageScanSafety env.root with - | e
      · exact scanContactsSafety_ok env.byPath CONTACT_PATHS_SAFETY
      · right
        exact pageScanSafety_valid hscan

lemma hrefEmail_valid {valid : String → Bool} {hrefs : List String} {e : String}
    (h : hrefEmail valid hrefs = some e) : valid e = true := by
  unfold hrefEmail at h
  rcases List.exists_of_findSome?_eq_some h with ⟨href, hmem, hf⟩
  dsimp only at hf
  by_cases hc : containsSub "mailto:" href = true
  · rw [if_pos hc] at hf
    by_cases hv : valid (pyStrip ((((href.replace "mailto:" "").splitOn "?").headD ""))) = true
    · rw [if_pos hv] at hf
      cases hf
      exact hv
    · rw [if_neg hv] at hf
      cases hf
  · rw [if_neg hc] at hf
    cases hf

lemma option_orElse_some {α : Type} {a b : Option α} {x : α}
    (h : (a <|> b) = some x) : a = some x ∨ b = some x := by
  cases a
  · exact Or.inr h
  · exact Or.inl h

lemma mailtoScanJan_valid {mo : Option String} {e : String}
    (h : mailtoScanJan mo = some e) : is_valid_email e = true := by
  unfold mailtoScanJan at h
  rcases mo with - | m <;> dsimp only at h
  · cases h
  · by_cases hv : is_valid_email (pyStrip m) = true
    · rw [if_pos hv] at h
      cases h
      exact hv
    · rw [if_neg hv] at h
      cases h

lemma mailtoScanSafety_valid {mo : Option String} {e : String}
    (h : mailtoScanSafety mo = some e) : valid_email e = true := by
  unfold mailtoScanSafety at h
  rcases mo with - | m <;> dsimp only at h
  · cases h
  · by_cases hv : valid_email m = true
    · rw [if_pos hv] at h
      cases h
      exact valid_email_pyStrip hv
    · rw [if_neg hv] at h
      cases h

lemma detailChainJan_valid {d : DetailEnv} {e : String}
    (h : detailChainJan d = some e) : is_valid_email e = true := by
  unfold detailChainJan at h
  rcases option_orElse_some h with h1 | h
  · exact mailtoScanJan_valid h1
  rcases option_orElse_some h with h1 | h
  · exact hrefEmail_valid h1
  rcases option_orElse_some h with h1 | h
  · exact hrefEmail_valid h1
  rcases option_orElse_some h with h1 | h
  · exact hrefEmail_valid h1
  exact List.find?_some h

lemma detailChainSafety_valid {d : DetailEnv} {e : String}
    (h : detailChainSafety d = some e) : valid_email e = true := by
  unfold detailChainSafety at h
  rcases option_orElse_some h with h1 | h
  · exact mailtoScanSafety_valid h1
  exact List.find?_some h

/-- Every result of the full janitor detail cascade is the empty string,
the blocked sentinel, or a validated email. -/
lemma extract_email_from_detail_ok (u : String) (d : DetailEnv) (w : WebsiteEnv) :
    extract_email_from_detail u d w = "" ∨
    extract_email_from_detail u d w = "__BLOCKED__" ∨
    is_valid_email (extract_email_from_detail u d w) = true := by
  unfold extract_email_from_detail
  by_cases hl : d.loadFails = true
  · simp [hl]
  rw [if_neg (by simpa using hl)]
  by_cases hb : blockedJan d.source = true
  · rw [if_pos hb]
    by_cases hw : (u ≠ "" && is_valid_website u) = true
    · rw [if_pos hw]
      rcases extract_email_from_website_ok u w with hok | hok
      · simp [hok]
      · have hne : extract_email_from_website u w ≠ "" := by
          intro hc
          rw [hc] at hok
          exact absurd hok (by decide)
        right
        right
        have hred : (let email := extract_email_from_website u w;
            if email ≠ "" then email else "__BLOCKED__") =
            extract_email_from_website u w := by
          simp [hne]
        rw [hred]
        exact hok
    · rw [if_neg hw]
      right
      left
      rfl
  · rw [if_neg hb]
    rcases hchain : detailChainJan d with - | e
    · dsimp only
      by_cases hw : (u ≠ "" && is_valid_website u) = true
      · rw [if_pos hw]
        rcases extract_email_from_website_ok u w with hok | hok
        · exact Or.inl hok
        · exact Or.inr (Or.inr hok)
      · rw [if_neg hw]
        exact Or.inl rfl
    · exact Or.inr (Or.inr (detailChainJan_valid hchain))

/-- Every result of the full safety detail cascade is the empty string,
the blocked sentinel, or a validated email. -/
lemma get_email_ok (u : String) (d : DetailEnv) (w : WebsiteEnv) :
    get_email u d w = "" ∨ get_email u d w = "__BLOCKED__" ∨
    valid_email (get_email u d w) = true := by
  unfold get_email
  by_cases hl : d.loadFails = true
  · simp [hl]
  rw [if_neg (by simpa using hl)]
  by_cases hb : blockedSafety d.source = true
  · rw [if_pos hb]
    by_cases hw : (u ≠ "" && is_valid_website_safety u) = true
    · rw [if_pos hw]
      rcases get_email_from_site_ok u w with hok | hok
      · exact Or.inl hok
      · exact Or.inr (Or.inr hok)
    · rw [if_neg hw]
      exact Or.inr (Or.inl rfl)
  · rw [if_neg hb]
    rcases hchain : detailChainSafety d with - | e
    · dsimp only
      by_cases hw : (u ≠ "" && is_valid_website_safety u) = true
      · rw [if_pos hw]
        rcases get_email_from_site_ok u w with hok | hok
        · exact Or.inl hok
        · exact Or.inr (Or.inr hok)
      · rw [if_neg hw]
        exact Or.inl rfl
    · exact Or.inr (Or.inr (detailChainSafety_valid hchain))

/-- C7: when the detail page trips the block heuristics but a company
website is available, passes the Website Filter, and yields an email, the
extraction engine returns that substitute email, not the blocked
sentinel — in both variants that implement the fallback.  (By
`extract_email_from_website_ok` / `get_email_from_site_ok`, any nonempty
substitute is a validated email.) -/
theorem c7_blocked_substitute_email
    (w w2 : String) (d d2 : DetailEnv) (we we2 : WebsiteEnv)
    (hload : d.loadFails = false) (hb : blockedJan d.source = true)
    (hw : is_valid_website w = true)
    (hsub : extract_email_from_website w we ≠ "")
    (hload2 : d2.loadFails = false) (hb2 : blockedSafety d2.source = true)
    (hw2 : is_valid_website_safety w2 = true)
    (hsub2 : get_email_from_site w2 we2 ≠ "") :
    extract_email_from_detail w d we = extract_email_from_website w we ∧
    extract_email_from_detail w d we ≠ "__BLOCKED__" ∧
    is_valid_email (extract_email_from_detail w d we) = true ∧
    get_email w2 d2 we2 = get_email_from_site w2 we2 ∧
    get_email w2 d2 we2 ≠ "__BLOCKED__" ∧
    valid_email (get_email w2 d2 we2) = true := by
  have hwne : w ≠ "" := by
    intro hc
    rw [hc] at hw
    exact absurd hw (by decide)
  have hw2ne : w2 ≠ "" := by
    intro hc
    rw [hc] at hw2
    exact absurd hw2 (by decide)
  have hvalid : is_valid_email (extract_email_from_website w we) = true := by
    rcases extract_email_from_website_ok w we with h | h
    · exact absurd h hsub
    · exact h
  have hvalid2 : valid_email (get_email_from_site w2 we2) = true := by
    rcases get_email_from_site_ok w2 we2 with h | h
    · exact absurd h hsub2
    · exact h
  have heq : extract_email_from_detail w d we = extract_email_from_website w we := by
    unfold extract_email_from_detail
    rw [if_neg (by simp [hload]), if_pos hb, if_pos (by simp [hwne, hw])]
    simp [hsub]
  have heq2 : get_email w2 d2 we2 = get_email_from_site w2 we2 := by
    unfold get_email
    rw [if_neg (by simp [hload2]), if_pos hb2, if_pos (by simp [hw2ne, hw2])]
  refine ⟨heq, ?_, ?_, heq2, ?_, ?_⟩
  · rw [heq]
    intro hc
    rw [hc] at hvalid
    exact absurd hvalid (by decide)
  · rw [heq]
    exact hvalid
  · rw [heq2]
    intro hc
    rw [hc] at hvalid2
    exact absurd hvalid2 (by decide)
  · rw [heq2]
    exact hvalid2

/-- A detail-page environment tripping the block heuristics of both
variants. -/
def blockedDetail : DetailEnv :=
  { loadFails := false
    source := "Sorry, you have been blocked. Cloudflare Ray ID: 12ab"
    mailto := none
    classHrefs := []
    allMailtoHrefs := []
    soupHrefs := []
    textEmails := [] }

/-- A company-website environment whose root page carries a
`mailto:info@acme.com` link. -/
def acmeSite : WebsiteEnv :=
  { root :=
      { loadFails := false
        title := "Acme Inc - Home"
        mailto := some "info@acme.com"
        textEmails := [] }
    byPath := fun _ =>
      { loadFails := true, title := "", mailto := none, textEmails := [] } }

/-- Witness for C7: with a blocked detail page and a valid website whose
root has a `mailto:info@acme.com` link, both variants return
`"info@acme.com"`, not the sentinel. -/
theorem c7_blocked_substitute_email_witness :
    extract_email_from_detail "https://acme.com" blockedDetail acmeSite = "info@acme.com" ∧
    extract_email_from_detail "https://acme.com" blockedDetail acmeSite ≠ "__BLOCKED__" ∧
    get_email "https://acme.com" blockedDetail acmeSite = "info@acme.com" := by
  obtain ⟨h1, h2, -, h4, -, -⟩ :=
    c7_blocked_substitute_email "https://acme.com" "https://acme.com"
      blockedDetail blockedDetail acmeSite acmeSite
      rfl (by decide) (by decide) (by decide)
      rfl (by decide) (by decide) (by decide)
  refine ⟨?_, h2, ?_⟩
  · rw [h1]
    decide
  · rw [h4]
    decide

/-- `MAX_RETRIES` in the janitor and warehouse variants. -/
def MAX_RETRIES : Nat := 3

/-- Per-page fetch environment: how many navigation attempts raise before
one succeeds, the listings the results page renders once loaded, and the
listings the session still shows when every attempt raises (the code
falls through to `get_listings_from_page` on the stale session). -/
structure PageFetch where
  failedAttempts : Nat
  content : List Listing
  staleContent : List Listing

/-- The listings the janitor/warehouse retry loop hands to the parser:
the page content on a successful load within `MAX_RETRIES` attempts,
otherwise whatever the stale session shows. -/
def shownContent (pf : PageFetch) : List Listing :=
  if pf.failedAttempts ≥ MAX_RETRIES then pf.staleContent else pf.content

/-- The email-fetch pass of `scrape_search` (janitor/warehouse) over the
new listings of one page: `fetchEmail` stands for
`extract_email_from_detail` applied to the lead's detail URL and website
in the live environment.  A sentinel result bumps the consecutive-block
counter (a restart resets it at 5); a nonempty non-sentinel result is
written into the lead's email field; an empty result leaves it
untouched. -/
def applyEmailsJan (fetchEmail : Lead → String) :
    List Lead → Nat → List Lead × Nat
  | [], blocked => ([], blocked)
  | l :: rest, blocked =>
    let em := fetchEmail l
    if em = "__BLOCKED__" then
      let b1 := blocked + 1
      let b2 := if b1 ≥ 5 then 0 else b1
      let r := applyEmailsJan fetchEmail rest b2
      (l :: r.1, r.2)
    else if em ≠ "" then
      let r := applyEmailsJan fetchEmail rest blocked
      ({ l with email := em } :: r.1, r.2)
    else
      let r := applyEmailsJan fetchEmail rest blocked
      (l :: r.1, r.2)

/-- The email-fetch pass of `scrape` (safety): same shape, but the
restart check (`if blocks >= 5`) runs after every lead, not only on
sentinel results. -/
def applyEmailsSafety (fetchEmail : Lead → String) :
    List Lead → Nat → List Lead × Nat
  | [], blocks => ([], blocks)
  | l :: rest, blocks =>
    let em := fetchEmail l
    let step : Lead × Nat :=
      if em = "__BLOCKED__" then (l, blocks + 1)
      else if em ≠ "" then ({ l with email := em }, blocks)
      else (l, blocks)
    let b2 := if step.2 ≥ 5 then 0 else step.2
    let r := applyEmailsSafety fetchEmail rest b2
    (step.1 :: r.1, r.2)

/-- Observable trace of one task's page loop: the page numbers for which
a navigation was started, the navigation attempts made per such page, the
number of 5-second inter-retry sleeps per such page, the in-memory lead
accumulator at loop exit, and the successive Output Artifact snapshots
written at page boundaries. -/
structure LoopRes where
  fetched : List Nat
  attempts : List Nat
  sleeps : List Nat
  leads : List Lead
  saves : List (List Lead)
deriving DecidableEq

/-- The page loop of `scrape_search` in `yp_5_janitor.py` over the
remaining page numbers.  Structure per page: retry loop (up to
`MAX_RETRIES` attempts, a 5-second sleep between retries, falling through
to the stale session after exhaustion), parse-with-filter, break on zero
parsed listings, immediate-add dedup, `continue` without a write when
everything is a duplicate, email fetch, accumulate, save. -/
def loopJan (env : Nat → PageFetch) (fetchEmail : Lead → String)
    (existing : List String) :
    List Nat → List String → List Lead → Nat → LoopRes
  | [], _, leads, _ => ⟨[], [], [], leads, []⟩
  | p :: rest, localIds, leads, blocked =>
    let pf := env p
    let atts := min (pf.failedAttempts + 1) MAX_RETRIES
    let slps := min pf.failedAttempts (MAX_RETRIES - 1)
    let parsed := (shownContent pf).filterMap parse_listing
    if parsed.isEmpty then ⟨[p], [atts], [slps], leads, []⟩
    else
      let step := dedupImmediate existing localIds parsed
      if step.1.isEmpty then
        let r := loopJan env fetchEmail existing rest step.2 leads blocked
        ⟨p :: r.fetched, atts :: r.attempts, slps :: r.sleeps, r.leads, r.saves⟩
      else
        let fe := applyEmailsJan fetchEmail step.1 blocked
        let leads2 := leads ++ fe.1
        let sv := saveRowsJan leads2
        let r := loopJan env fetchEmail existing rest step.2 leads2 fe.2
        ⟨p :: r.fetched, atts :: r.attempts, slps :: r.sleeps, r.leads,
          if sv.isEmpty then r.saves else sv :: r.saves⟩

/-- The page loop of `scrape` in `yp_6_safety.py`: a single navigation
attempt per page whose failure skips straight to the next page
(`except: continue` — no retries), break on zero parsed listings, batch
dedup, `continue` on all-duplicates, email fetch, accumulate, save. -/
def loopSafety (env : Nat → PageFetch) (fetchEmail : Lead → String)
    (existing : List String) :
    List Nat → List String → List Lead → Nat → LoopRes
  | [], _, leads, _ => ⟨[], [], [], leads, []⟩
  | p :: rest, localIds, leads, blocks =>
    let pf := env p
    if pf.failedAttempts ≥ 1 then
      let r := loopSafety env fetchEmail existing rest localIds leads blocks
      ⟨p :: r.fetched, 1 :: r.attempts, 0 :: r.sleeps, r.leads, r.saves⟩
    else
      let parsed := pf.content.filterMap parse_listing_safety
      if parsed.isEmpty then ⟨[p], [1], [0], leads, []⟩
      else
        let step := dedupSafety existing localIds parsed
        if step.1.isEmpty then
          let r := loopSafety env fetchEmail existing rest step.2 leads blocks
          ⟨p :: r.fetched, 1 :: r.attempts, 0 :: r.sleeps, r.leads, r.saves⟩
        else
          let fe := applyEmailsSafety fetchEmail step.1 blocks
          let leads2 := leads ++ fe.1
          let sv := saveRowsSafety leads2
          let r := loopSafety env fetchEmail existing rest step.2 leads2 fe.2
          ⟨p :: r.fetched, 1 :: r.attempts, 0 :: r.sleeps, r.leads,
            if sv.isEmpty then r.saves else sv :: r.saves⟩

/-- The page loop of `scrape_search` in `yp_b2b_warehouse_scraper.py`:
same retry and dedup structure as the janitor loop, but the parser
applies no website filter and the save path writes every accumulated
lead. -/
def loopWh (env : Nat → PageFetch) (fetchEmail : Lead → String)
    (existing : List String) :
    List Nat → List String → List Lead → Nat → LoopRes
  | [], _, leads, _ => ⟨[], [], [], leads, []⟩
  | p :: rest, localIds, leads, blocked =>
    let pf := env p
    let atts := min (pf.failedAttempts + 1) MAX_RETRIES
    let slps := min pf.failedAttempts (MAX_RETRIES - 1)
    let parsed := (shownContent pf).filterMap parse_listing_wh
    if parsed.isEmpty then ⟨[p], [atts], [slps], leads, []⟩
    else
      let step := dedupImmediate existing localIds parsed
      if step.1.isEmpty then
        let r := loopWh env fetchEmail existing rest step.2 leads blocked
        ⟨p :: r.fetched, atts :: r.attempts, slps :: r.sleeps, r.leads, r.saves⟩
      else
        let fe := applyEmailsJan fetchEmail step.1 blocked
        let leads2 := leads ++ fe.1
        let sv := saveRowsWh leads2
        let r := loopWh env fetchEmail existing rest step.2 leads2 fe.2
        ⟨p :: r.fetched, atts :: r.attempts, slps :: r.sleeps, r.leads,
          if sv.isEmpty then r.saves else sv :: r.saves⟩

/-- `range(START_PAGE, MAX_PAGES + 1)` with `MAX_PAGES = 5` (janitor and
safety variants). -/
def pagesFive : List Nat := [1, 2, 3, 4, 5]

/-- `range(START_PAGE, MAX_PAGES + 1)` with `MAX_PAGES = 10` (warehouse
variant). -/
def pagesTen : List Nat := [1, 2, 3, 4, 5, 6, 7, 8, 9, 10]

/-- Result of one full task execution, `scrape_search`'s effects at the
task boundary: the loop trace, the save events including any
exception-path flush, and whether the session was torn down. -/
structure TaskRes where
  loop : LoopRes
  saves : List (List Lead)
  teardown : Bool
deriving DecidableEq

/-- `scrape_search` (janitor) for one task.  `fileLeads` are the rows read
back from the task's own artifact (re-filtered, identities recomputed, and
seeded into both the accumulator and the local scope).  `exc = some k`
models an unexpected exception raised when the loop reaches page `k`: the
`except` arm re-saves the accumulated leads when nonempty, and the
`finally` arm always tears the session down. -/
def scrapeJan (env : Nat → PageFetch) (fetchEmail : Lead → String)
    (existing : List String) (fileLeads : List Lead) (exc : Option Nat) : TaskRes :=
  let seed := (fileLeads.filter (fun l => is_valid_website l.website)).map
    (fun l => { l with leadId := generate_lead_id l.company l.phone })
  let localIds := seed.map (fun l => l.leadId)
  match exc with
  | none =>
    let r := loopJan env fetchEmail existing pagesFive localIds seed 0
    ⟨r, r.saves, true⟩
  | some k =>
    let r := loopJan env fetchEmail existing (pagesFive.filter (fun p => p < k))
      localIds seed 0
    let flush := if r.leads.isEmpty then r.saves
      else
        let sv := saveRowsJan r.leads
        r.saves ++ (if sv.isEmpty then [] else [sv])
    ⟨r, flush, true⟩

/-- `scrape` (safety) for one task: identical boundary structure except
that its `except` arm only prints — it performs **no** flush of the
accumulated leads. -/
def scrapeSafety (env : Nat → PageFetch) (fetchEmail : Lead → String)
    (existing : List String) (fileLeads : List Lead) (exc : Option Nat) : TaskRes :=
  let seed := (fileLeads.filter (fun l => is_valid_website_safety l.website)).map
    (fun l => { l with leadId := gen_id l.company l.phone })
  let localIds := seed.map (fun l => l.leadId)
  match exc with
  | none =>
    let r := loopSafety env fetchEmail existing pagesFive localIds seed 0
    ⟨r, r.saves, true⟩
  | some k =>
    let r := loopSafety env fetchEmail existing (pagesFive.filter (fun p => p < k))
      localIds seed 0
    ⟨r, r.saves, true⟩

lemma parse_listing_none_of_invalid {l : Listing} {ws : String}
    (hw : extractedWebsite l = some ws) (hv : is_valid_website ws = false) :
    parse_listing l = none := by
  by_cases hcomp : extractedCompany l = ""
  · simp [parse_listing, hcomp]
  · simp [parse_listing, hcomp, hw, hv]

lemma parse_listing_none_of_keyerr {l : Listing}
    (hw : extractedWebsite l = none) : parse_listing l = none := by
  by_cases hcomp : extractedCompany l = ""
  · simp [parse_listing, hcomp]
  · simp [parse_listing, hcomp, hw]

lemma parse_listing_safety_none_of_invalid {l : Listing} {ws : String}
    (hw : extractedWebsite l = some ws) (hv : is_valid_website_safety ws = false) :
    parse_listing_safety l = none := by
  by_cases hcomp : extractedCompany l = ""
  · simp [parse_listing_safety, hcomp]
  · simp [parse_listing_safety, hcomp, hw, hv]

lemma parse_listing_safety_none_of_keyerr {l : Listing}
    (hw : extractedWebsite l = none) : parse_listing_safety l = none := by
  by_cases hcomp : extractedCompany l = ""
  · simp [parse_listing_safety, hcomp]
  · simp [parse_listing_safety, hcomp, hw]

lemma parse_listing_email_empty {l : Listing} {ld : Lead}
    (h : parse_listing l = some ld) : ld.email = "" := by
  simp only [parse_listing] at h
  by_cases hcomp : extractedCompany l = ""
  · rw [if_pos hcomp] at h
    cases h
  · rw [if_neg hcomp] at h
    rcases hw : extractedWebsite l with - | ws <;> rw [hw] at h <;> dsimp only at h
    · cases h
    · by_cases hv : (!(is_valid_website ws)) = true
      · rw [if_pos hv] at h
        cases h
      · rw [if_neg hv] at h
        cases h
        rfl

lemma parse_listing_safety_email_empty {l : Listing} {ld : Lead}
    (h : parse_listing_safety l = some ld) : ld.email = "" := by
  simp only [parse_listing_safety] at h
  by_cases hcomp : extractedCompany l = ""
  · rw [if_pos hcomp] at h
    cases h
  · rw [if_neg hcomp] at h
    rcases hw : extractedWebsite l with - | ws <;> rw [hw] at h <;> dsimp only at h
    · cases h
    · by_cases hv : (!(is_valid_website_safety ws)) = true
      · rw [if_pos hv] at h
        cases h
      · rw [if_neg hv] at h
        cases h
        rfl

lemma parse_listing_wh_email_empty {l : Listing} {ld : Lead}
    (h : parse_listing_wh l = some ld) : ld.email = "" := by
  simp only [parse_listing_wh] at h
  by_cases hcomp : extractedCompany l = ""
  · rw [if_pos hcomp] at h
    cases h
  · rw [if_neg hcomp] at h
    rcases hw : extractedWebsite l with - | ws <;> rw [hw] at h <;> dsimp only at h
    · cases h
    · cases h
      rfl

lemma dedupImmediate_subset (existing : List String) :
    ∀ (ls : List Lead) (localIds : List String),
      ∀ l ∈ (dedupImmediate existing localIds ls).1, l ∈ ls := by
  intro ls
  induction ls with
  | nil => intro localIds l hl; simp [dedupImmediate] at hl
  | cons hd tl ih =>
    intro localIds l hl
    by_cases hc : (!(existing.contains hd.leadId) && !(localIds.contains hd.leadId)) = true
    · rw [dedupImmediate, if_pos hc] at hl
      rcases List.mem_cons.mp hl with rfl | hl'
      · exact List.mem_cons_self l tl
      · exact List.mem_cons_of_mem hd (ih _ l hl')
    · rw [dedupImmediate, if_neg hc] at hl
      exact List.mem_cons_of_mem hd (ih _ l hl)

lemma dedupSafety_subset (existing localIds : List String) (ls : List Lead) :
    ∀ l ∈ (dedupSafety existing localIds ls).1, l ∈ ls := by
  intro l hl
  exact (List.mem_filter.mp hl).1

/-- The invariant C10 tracks on a lead's email field (janitor validator). -/
def leadEmailOkJan (l : Lead) : Prop :=
  l.email = "" ∨ is_valid_email l.email = true

/-- The invariant C10 tracks on a lead's email field (safety validator). -/
def leadEmailOkSafety (l : Lead) : Prop :=
  l.email = "" ∨ valid_email l.email = true

lemma leadEmailOkJan_ne_blocked {l : Lead} (h : leadEmailOkJan l) :
    l.email ≠ "__BLOCKED__" := by
  intro hc
  rcases h with h | h <;> rw [hc] at h <;> exact absurd h (by decide)

lemma leadEmailOkSafety_ne_blocked {l : Lead} (h : leadEmailOkSafety l) :
    l.email ≠ "__BLOCKED__" := by
  intro hc
  rcases h with h | h <;> rw [hc] at h <;> exact absurd h (by decide)

lemma applyEmailsJan_inv {f : Lead → String}
    (hf : ∀ l, f l = "" ∨ f l = "__BLOCKED__" ∨ is_valid_email (f l) = true) :
    ∀ (ls : List Lead) (blocked : Nat), (∀ l ∈ ls, leadEmailOkJan l) →
      ∀ l' ∈ (applyEmailsJan f ls blocked).1, leadEmailOkJan l' := by
  intro ls
  induction ls with
  | nil => intro blocked hls l' hl'; simp [applyEmailsJan] at hl'
  | cons l rest ih =>
    intro blocked hls l' hl'
    have hl : leadEmailOkJan l := hls l (List.mem_cons_self l rest)
    have hrest : ∀ x ∈ rest, leadEmailOkJan x :=
      fun x hx => hls x (List.mem_cons_of_mem l hx)
    rw [applyEmailsJan] at hl'
    by_cases hb : f l = "__BLOCKED__"
    · rw [if_pos hb] at hl'
      rcases List.mem_cons.mp hl' with rfl | hl''
      · exact hl
      · exact ih _ hrest l' hl''
    · rw [if_neg hb] at hl'
      by_cases hne : f l ≠ ""
      · rw [if_pos hne] at hl'
        rcases List.mem_cons.mp hl' with rfl | hl''
        · right
          show is_valid_email (f l) = true
          rcases hf l with h | h | h
          · exact absurd h hne
          · exact absurd h hb
          · exact h
        · exact ih _ hrest l' hl''
      · rw [if_neg hne] at hl'
        rcases List.mem_cons.mp hl' with rfl | hl''
        · exact hl
        · exact ih _ hrest l' hl''

lemma applyEmailsSafety_inv {f : Lead → String}
    (hf : ∀ l, f l = "" ∨ f l = "__BLOCKED__" ∨ valid_email (f l) = true) :
    ∀ (ls : List Lead) (blocks : Nat), (∀ l ∈ ls, leadEmailOkSafety l) →
      ∀ l' ∈ (applyEmailsSafety f ls blocks).1, leadEmailOkSafety l' := by
  intro ls
  induction ls with
  | nil => intro blocks hls l' hl'; simp [applyEmailsSafety] at hl'
  | cons l rest ih =>
    intro blocks hls l' hl'
    have hl : leadEmailOkSafety l := hls l (List.mem_cons_self l rest)
    have hrest : ∀ x ∈ rest, leadEmailOkSafety x :=
      fun x hx => hls x (List.mem_cons_of_mem l hx)
    rw [applyEmailsSafety] at hl'
    dsimp only at hl'
    rcases List.mem_cons.mp hl' with rfl | hl''
    · by_cases hb : f l = "__BLOCKED__"
      · simpa [hb] using hl
      · by_cases hne : f l ≠ ""
        · have : (if f l = "__BLOCKED__" then (l, blocks + 1)
              else if f l ≠ "" then ({ l with email := f l }, blocks)
              else (l, blocks)).1 = { l with email := f l } := by
            simp [hb, hne]
          rw [this]
          right
          show valid_email (f l) = true
          rcases hf l with h | h | h
          · exact absurd h hne
          · exact absurd h hb
          · exact h
        · simpa [hb, hne] using hl
    · exact ih _ hrest l' hl''

lemma loopJan_email_inv (env : Nat → PageFetch) (f : Lead → String)
    (existing : List String)
    (hf : ∀ l, f l = "" ∨ f l = "__BLOCKED__" ∨ is_valid_email (f l) = true) :
    ∀ (pages : List Nat) (localIds : List String) (leads : List Lead) (blocked : Nat),
      (∀ l ∈ leads, leadEmailOkJan l) →
      (∀ l ∈ (loopJan env f existing pages localIds leads blocked).leads,
        leadEmailOkJan l) ∧
      (∀ s ∈ (loopJan env f existing pages localIds leads blocked).saves,
        ∀ l ∈ s, leadEmailOkJan l) := by
  intro pages
  induction pages with
  | nil =>
    intro localIds leads blocked hleads
    rw [loopJan]
    exact ⟨hleads, by intro s hs; simp at hs⟩
  | cons p rest ih =>
    intro localIds leads blocked hleads
    rw [loopJan]
    by_cases hp : ((shownContent (env p)).filterMap parse_listing).isEmpty = true
    · rw [if_pos hp]
      exact ⟨hleads, by intro s hs; simp at hs⟩
    · rw [if_neg hp]
      by_cases hd : (dedupImmediate existing localIds
          ((shownContent (env p)).filterMap parse_listing)).1.isEmpty = true
      · rw [if_pos hd]
        exact ih _ leads blocked hleads
      · rw [if_neg hd]
        have hstep : ∀ l ∈ (dedupImmediate existing localIds
            ((shownContent (env p)).filterMap parse_listing)).1, leadEmailOkJan l := by
          intro l hl
          have hparsed := dedupImmediate_subset existing _ localIds l hl
          rcases List.mem_filterMap.mp hparsed with ⟨a, -, hpa⟩
          exact Or.inl (parse_listing_email_empty hpa)
        have hfe : ∀ l ∈ (applyEmailsJan f (dedupImmediate existing localIds
            ((shownContent (env p)).filterMap parse_listing)).1 blocked).1,
            leadEmailOkJan l :=
          applyEmailsJan_inv hf _ blocked hstep
        have hleads2 : ∀ l ∈ leads ++ (applyEmailsJan f (dedupImmediate existing localIds
            ((shownContent (env p)).filterMap parse_listing)).1 blocked).1,
            leadEmailOkJan l := by
          intro l hl
          rcases List.mem_append.mp hl with h | h
          · exact hleads l h
          · exact hfe l h
        obtain ⟨ihleads, ihsaves⟩ := ih _ _ _ hleads2
        refine ⟨ihleads, ?_⟩
        intro s hs
        dsimp only at hs
        by_cases hsv : (saveRowsJan (leads ++ (applyEmailsJan f (dedupImmediate existing
            localIds ((shownContent (env p)).filterMap parse_listing)).1 blocked).1)).isEmpty = true
        · rw [if_pos hsv] at hs
          exact ihsaves s hs
        · rw [if_neg hsv] at hs
          rcases List.mem_cons.mp hs with rfl | hs'
          · intro l hl
            exact hleads2 l (List.mem_filter.mp hl).1
          · exact ihsaves s hs'

lemma loopSafety_email_inv (env : Nat → PageFetch) (f : Lead → String)
    (existing : List String)
    (hf : ∀ l, f l = "" ∨ f l = "__BLOCKED__" ∨ valid_email (f l) = true) :
    ∀ (pages : List Nat) (localIds : List String) (leads : List Lead) (blocks : Nat),
      (∀ l ∈ leads, leadEmailOkSafety l) →
      (∀ l ∈ (loopSafety env f existing pages localIds leads blocks).leads,
        leadEmailOkSafety l) ∧
      (∀ s ∈ (loopSafety env f existing pages localIds leads blocks).saves,
        ∀ l ∈ s, leadEmailOkSafety l) := by
  intro pages
  induction pages with
  | nil =>
    intro localIds leads blocks hleads
    rw [loopSafety]
    exact ⟨hleads, by intro s hs; simp at hs⟩
  | cons p rest ih =>
    intro localIds leads blocks hleads
    rw [loopSafety]
    by_cases hfail : (env p).failedAttempts ≥ 1
    · rw [if_pos hfail]
      exact ih _ leads blocks hleads
    · rw [if_neg hfail]
      by_cases hp : ((env p).content.filterMap parse_listing_safety).isEmpty = true
      · rw [if_pos hp]
        exact ⟨hleads, by intro s hs; simp at hs⟩
      · rw [if_neg hp]
        by_cases hd : (dedupSafety existing localIds
            ((env p).content.filterMap parse_listing_safety)).1.isEmpty = true
        · rw [if_pos hd]
          exact ih _ leads blocks hleads
        · rw [if_neg hd]
          have hstep : ∀ l ∈ (dedupSafety existing localIds
              ((env p).content.filterMap parse_listing_safety)).1, leadEmailOkSafety l := by
            intro l hl
            have hparsed := dedupSafety_subset existing localIds _ l hl
            rcases List.mem_filterMap.mp hparsed with ⟨a, -, hpa⟩
            exact Or.inl (parse_listing_safety_email_empty hpa)
          have hfe : ∀ l ∈ (applyEmailsSafety f (dedupSafety existing localIds
              ((env p).content.filterMap parse_listing_safety)).1 blocks).1,
              leadEmailOkSafety l :=
            applyEmailsSafety_inv hf _ blocks hstep
          have hleads2 : ∀ l ∈ leads ++ (applyEmailsSafety f (dedupSafety existing localIds
              ((env p).content.filterMap parse_listing_safety)).1 blocks).1,
              leadEmailOkSafety l := by
            intro l hl
            rcases List.mem_append.mp hl with h | h
            · exact hleads l h
            · exact hfe l h
          obtain ⟨ihleads, ihsaves⟩ := ih _ _ _ hleads2
          refine ⟨ihleads, ?_⟩
          intro s hs
          dsimp only at hs
          by_cases hsv : (saveRowsSafety (leads ++ (applyEmailsSafety f (dedupSafety existing
              localIds ((env p).content.filterMap parse_listing_safety)).1 blocks).1)).isEmpty = true
          · rw [if_pos hsv] at hs
            exact ihsaves s hs
          · rw [if_neg hsv] at hs
            rcases List.mem_cons.mp hs with rfl | hs'
            · intro l hl
              exact hleads2 l (List.mem_filter.mp hl).1
            · exact ihsaves s hs'

/-- C10: every email-extraction result is the empty string, the blocked
sentinel, or a validated email (in both variants), and under any
extraction oracle with that property every row of every persisted
snapshot of the page loop carries an email that is empty or validated —
never the `"__BLOCKED__"` sentinel — provided the rows seeded from the
existing artifact already satisfied the invariant. -/
theorem c10_email_invariant (env : Nat → PageFetch) (f fs : Lead → String)
    (existing localIds : List String) (pages : List Nat) (leads : List Lead)
    (blocked : Nat)
    (hf : ∀ l, f l = "" ∨ f l = "__BLOCKED__" ∨ is_valid_email (f l) = true)
    (hfs : ∀ l, fs l = "" ∨ fs l = "__BLOCKED__" ∨ valid_email (fs l) = true)
    (hseed : ∀ l ∈ leads, l.email = "" ∨ is_valid_email l.email = true)
    (hseeds : ∀ l ∈ leads, l.email = "" ∨ valid_email l.email = true) :
    (∀ u d w, extract_email_from_detail u d w = "" ∨
      extract_email_from_detail u d w = "__BLOCKED__" ∨
      is_valid_email (extract_email_from_detail u d w) = true) ∧
    (∀ u d w, get_email u d w = "" ∨ get_email u d w = "__BLOCKED__" ∨
      valid_email (get_email u d w) = true) ∧
    (∀ s ∈ (loopJan env f existing pages localIds leads blocked).saves, ∀ l ∈ s,
      (l.email = "" ∨ is_valid_email l.email = true) ∧ l.email ≠ "__BLOCKED__") ∧
    (∀ s ∈ (loopSafety env fs existing pages localIds leads blocked).saves, ∀ l ∈ s,
      (l.email = "" ∨ valid_email l.email = true) ∧ l.email ≠ "__BLOCKED__") := by
  obtain ⟨-, hsavesJ⟩ :=
    loopJan_email_inv env f existing hf pages localIds leads blocked hseed
  obtain ⟨-, hsavesS⟩ :=
    loopSafety_email_inv env fs existing hfs pages localIds leads blocked hseeds
  refine ⟨extract_email_from_detail_ok, get_email_ok, ?_, ?_⟩
  · intro s hs l hl
    have h := hsavesJ s hs l hl
    exact ⟨h, leadEmailOkJan_ne_blocked h⟩
  · intro s hs l hl
    have h := hsavesS s hs l hl
    exact ⟨h, leadEmailOkSafety_ne_blocked h⟩

/-- Witness for C10: the cascade component instantiated at a concrete
blocked detail page with no website. -/
theorem c10_email_invariant_witness :
    extract_email_from_detail "" blockedDetail acmeSite = "" ∨
    extract_email_from_detail "" blockedDetail acmeSite = "__BLOCKED__" ∨
    is_valid_email (extract_email_from_detail "" blockedDetail acmeSite) = true :=
  (c10_email_invariant (fun _ => PageFetch.mk 0 [] []) (fun _ => "") (fun _ => "")
    [] [] [] [] 0 (fun _ => Or.inl rfl) (fun _ => Or.inl rfl)
    (by intro l hl; simp at hl) (by intro l hl; simp at hl)).1 "" blockedDetail acmeSite

lemma dedupImmediate_all_dup (existing : List String) :
    ∀ (ls : List Lead) (localIds : List String),
      (∀ l ∈ ls, existing.contains l.leadId = true ∨ localIds.contains l.leadId = true) →
      dedupImmediate existing localIds ls = ([], localIds) := by
  intro ls
  induction ls with
  | nil => intro localIds hdup; rfl
  | cons hd tl ih =>
    intro localIds hdup
    have hc : (!(existing.contains hd.leadId) && !(localIds.contains hd.leadId)) = false := by
      rcases hdup hd (List.mem_cons_self hd tl) with h | h
      · have hm : hd.leadId ∈ existing := by simpa using h
        simp [hm]
      · have hm : hd.leadId ∈ localIds := by simpa using h
        simp [hm]
    rw [dedupImmediate, if_neg (by rw [hc]; simp)]
    exact ih localIds (fun l hl => hdup l (List.mem_cons_of_mem hd hl))

lemma dedupSafety_all_dup (existing localIds : List String) (ls : List Lead)
    (hdup : ∀ l ∈ ls, existing.contains l.leadId = true ∨
      localIds.contains l.leadId = true) :
    dedupSafety existing localIds ls = ([], localIds) := by
  unfold dedupSafety
  have hfil : ls.filter (fun l => !(existing.contains l.leadId) &&
      !(localIds.contains l.leadId)) = [] := by
    rw [List.filter_eq_nil_iff]
    intro l hl
    rcases hdup l hl with h | h
    · have hm : l.leadId ∈ existing := by simpa using h
      simp [hm]
    · have hm : l.leadId ∈ localIds := by simpa using h
      simp [hm]
  rw [hfil]
  rfl

/-- C5: a page whose every parsed listing is already in the global or
local dedup scope produces no persistence write, leaves the accumulator
untouched, and does not end the task — the loop proceeds to the remaining
pages with unchanged state, in both the janitor and safety variants. -/
theorem c5_all_duplicates_skips_page (env : Nat → PageFetch) (f : Lead → String)
    (existing localIds : List String) (leads : List Lead) (blocked : Nat)
    (p : Nat) (rest : List Nat)
    (hjne : (shownContent (env p)).filterMap parse_listing ≠ [])
    (hjdup : ∀ l ∈ (shownContent (env p)).filterMap parse_listing,
      existing.contains l.leadId = true ∨ localIds.contains l.leadId = true)
    (hload : (env p).failedAttempts = 0)
    (hsne : (env p).content.filterMap parse_listing_safety ≠ [])
    (hsdup : ∀ l ∈ (env p).content.filterMap parse_listing_safety,
      existing.contains l.leadId = true ∨ localIds.contains l.leadId = true) :
    (loopJan env f existing (p :: rest) localIds leads blocked).fetched =
      p :: (loopJan env f existing rest localIds leads blocked).fetched ∧
    (loopJan env f existing (p :: rest) localIds leads blocked).saves =
      (loopJan env f existing rest localIds leads blocked).saves ∧
    (loopJan env f existing (p :: rest) localIds leads blocked).leads =
      (loopJan env f existing rest localIds leads blocked).leads ∧
    (loopSafety env f existing (p :: rest) localIds leads blocked).fetched =
      p :: (loopSafety env f existing rest localIds leads blocked).fetched ∧
    (loopSafety env f existing (p :: rest) localIds leads blocked).saves =
      (loopSafety env f existing rest localIds leads blocked).saves ∧
    (loopSafety env f existing (p :: rest) localIds leads blocked).leads =
      (loopSafety env f existing rest localIds leads blocked).leads := by
  have hpj : ((shownContent (env p)).filterMap parse_listing).isEmpty = false := by
    rcases h : (shownContent (env p)).filterMap parse_listing with - | ⟨a, t⟩
    · exact absurd h hjne
    · rfl
  have hdj := dedupImmediate_all_dup existing
    ((shownContent (env p)).filterMap parse_listing) localIds hjdup
  have hps : ((env p).content.filterMap parse_listing_safety).isEmpty = false := by
    rcases h : (env p).content.filterMap parse_listing_safety with - | ⟨a, t⟩
    · exact absurd h hsne
    · rfl
  have hds := dedupSafety_all_dup existing localIds
    ((env p).content.filterMap parse_listing_safety) hsdup
  have hjan : loopJan env f existing (p :: rest) localIds leads blocked =
      ⟨p :: (loopJan env f existing rest localIds leads blocked).fetched,
        min ((env p).failedAttempts + 1) MAX_RETRIES ::
          (loopJan env f existing rest localIds leads blocked).attempts,
        min (env p).failedAttempts (MAX_RETRIES - 1) ::
          (loopJan env f existing rest localIds leads blocked).sleeps,
        (loopJan env f existing rest localIds leads blocked).leads,
        (loopJan env f existing rest localIds leads blocked).saves⟩ := by
    rw [loopJan]
    rw [if_neg (by rw [hpj]; simp)]
    rw [hdj]
    rfl
  have hnofail : ¬((env p).failedAttempts ≥ 1) := by
    rw [hload]
    decide
  have hsaf : loopSafety env f existing (p :: rest) localIds leads blocked =
      ⟨p :: (loopSafety env f existing rest localIds leads blocked).fetched,
        1 :: (loopSafety env f existing rest localIds leads blocked).attempts,
        0 :: (loopSafety env f existing rest localIds leads blocked).sleeps,
        (loopSafety env f existing rest localIds leads blocked).leads,
        (loopSafety env f existing rest localIds leads blocked).saves⟩ := by
    rw [loopSafety]
    rw [if_neg hnofail]
    rw [if_neg (by rw [hps]; simp)]
    rw [hds]
    rfl
  rw [hjan, hsaf]
  exact ⟨rfl, rfl, rfl, rfl, rfl, rfl⟩

/-- A results-page environment whose first page renders one listing (the
sample business) and whose later pages are empty. -/
def envOnePage : Nat → PageFetch :=
  fun p => if p = 1 then ⟨0, [sampleListing], []⟩ else ⟨0, [], []⟩

/-- The identity of the sample business. -/
def idSample : String := generate_lead_id "Acme Supply Co" "555-0100"

/-- Witness for C5: with the sample business already in the global scope,
page 1 is skipped (same saves, same accumulator) and the loop still
reaches the remaining pages. -/
theorem c5_all_duplicates_skips_page_witness :
    (loopJan envOnePage (fun _ => "") [idSample] (1 :: [2, 3, 4, 5]) [] [] 0).saves =
      (loopJan envOnePage (fun _ => "") [idSample] [2, 3, 4, 5] [] [] 0).saves ∧
    (loopJan envOnePage (fun _ => "") [idSample] (1 :: [2, 3, 4, 5]) [] [] 0).fetched =
      1 :: (loopJan envOnePage (fun _ => "") [idSample] [2, 3, 4, 5] [] [] 0).fetched ∧
    (loopSafety envOnePage (fun _ => "") [idSample] (1 :: [2, 3, 4, 5]) [] [] 0).saves =
      (loopSafety envOnePage (fun _ => "") [idSample] [2, 3, 4, 5] [] [] 0).saves := by
  obtain ⟨h1, h2, -, -, h5, -⟩ :=
    c5_all_duplicates_skips_page envOnePage (fun _ => "") [idSample] [] [] 0 1 [2, 3, 4, 5]
      (by decide) (by decide) (by decide) (by decide) (by decide)
  exact ⟨h2, h1, h5⟩

/-- C4 (amended): in the janitor and safety variants, a successfully
fetched page on which no listing's extracted website passes the Website
Filter parses to zero listings and ends the task — no further page is
navigated to, nothing is written, the accumulator is unchanged.  The
warehouse variant has no Website Filter, so the property fails there —
see the counterexample. -/
theorem c4_empty_page_ends_task (env : Nat → PageFetch) (f : Lead → String)
    (existing localIds : List String) (leads : List Lead) (blocked : Nat)
    (p : Nat) (rest : List Nat)
    (hload : (env p).failedAttempts = 0)
    (hnopass : ∀ l ∈ (env p).content, ∀ ws, extractedWebsite l = some ws →
      is_valid_website ws = false ∧ is_valid_website_safety ws = false) :
    (loopJan env f existing (p :: rest) localIds leads blocked).fetched = [p] ∧
    (loopJan env f existing (p :: rest) localIds leads blocked).saves = [] ∧
    (loopJan env f existing (p :: rest) localIds leads blocked).leads = leads ∧
    (loopSafety env f existing (p :: rest) localIds leads blocked).fetched = [p] ∧
    (loopSafety env f existing (p :: rest) localIds leads blocked).saves = [] ∧
    (loopSafety env f existing (p :: rest) localIds leads blocked).leads = leads := by
  have hshown : shownContent (env p) = (env p).content := by
    unfold shownContent
    rw [hload]
    rfl
  have hpj : (env p).content.filterMap parse_listing = [] := by
    rw [List.filterMap_eq_nil_iff]
    intro a ha
    rcases hw : extractedWebsite a with - | ws
    · exact parse_listing_none_of_keyerr hw
    · exact parse_listing_none_of_invalid hw (hnopass a ha ws hw).1
  have hps : (env p).content.filterMap parse_listing_safety = [] := by
    rw [List.filterMap_eq_nil_iff]
    intro a ha
    rcases hw : extractedWebsite a with - | ws
    · exact parse_listing_safety_none_of_keyerr hw
    · exact parse_listing_safety_none_of_invalid hw (hnopass a ha ws hw).2
  have hnofail : ¬((env p).failedAttempts ≥ 1) := by
    rw [hload]
    decide
  have hjan : loopJan env f existing (p :: rest) localIds leads blocked =
      ⟨[p], [min ((env p).failedAttempts + 1) MAX_RETRIES],
        [min (env p).failedAttempts (MAX_RETRIES - 1)], leads, []⟩ := by
    rw [loopJan]
    rw [if_pos (by rw [hshown, hpj]; rfl)]
  have hsaf : loopSafety env f existing (p :: rest) localIds leads blocked =
      ⟨[p], [1], [0], leads, []⟩ := by
    rw [loopSafety]
    rw [if_neg hnofail]
    rw [if_pos (by rw [hps]; rfl)]
  rw [hjan, hsaf]
  exact ⟨rfl, rfl, rfl, rfl, rfl, rfl⟩

/-- A results-page environment in which every page renders the
blacklisted-website listing only. -/
def envBlacklisted : Nat → PageFetch := fun _ => ⟨0, [listingYP], []⟩

/-- Witness for C4: a page whose single listing's website is a
yellowpages.com link ends the task in the janitor and safety variants. -/
theorem c4_empty_page_ends_task_witness :
    (loopJan envBlacklisted (fun _ => "") [] pagesFive [] [] 0).fetched = [1] ∧
    (loopSafety envBlacklisted (fun _ => "") [] pagesFive [] [] 0).fetched = [1] := by
  have hno : ∀ l ∈ (envBlacklisted 1).content, ∀ ws, extractedWebsite l = some ws →
      is_valid_website ws = false ∧ is_valid_website_safety ws = false := by
    intro l hl ws hw
    have hl' : l = listingYP := by simpa [envBlacklisted] using hl
    subst hl'
    rw [show extractedWebsite listingYP =
      some "https://www.yellowpages.com/acme-supply" from rfl] at hw
    cases hw
    exact ⟨by decide, by decide⟩
  obtain ⟨h1, -, -, h4, -, -⟩ :=
    c4_empty_page_ends_task envBlacklisted (fun _ => "") [] [] [] 0 1 [2, 3, 4, 5]
      rfl hno
  exact ⟨h1, h4⟩

/-- A warehouse-variant environment: page 1 renders only the
blacklisted-website listing, page 2 is empty. -/
def envBlacklistedWh : Nat → PageFetch :=
  fun p => if p = 1 then ⟨0, [listingYP], []⟩ else ⟨0, [], []⟩

/-- C4 counterexample: in the warehouse variant a page on which zero
listings pass the Website Filter still parses to a nonempty listing list,
so the task does **not** terminate there — page 2 is fetched next. -/
theorem c4_counterexample :
    ((envBlacklistedWh 1).content.filterMap parse_listing_wh).all
      (fun l => !(is_valid_website l.website)) = true ∧
    ((envBlacklistedWh 1).content.filterMap parse_listing_wh).length = 1 ∧
    (loopWh envBlacklistedWh (fun _ => "") [] pagesTen [] [] 0).fetched = [1, 2] := by
  exact ⟨by decide, by decide, by decide⟩

/-- C6 (amended): in the janitor and warehouse variants every fetched page
records `min(failures + 1, 3)` navigation attempts and
`min(failures, 2)` fixed 5-second inter-retry sleeps; after exhausting
all retries the controller proceeds to parse whatever the stale session
shows, and when that parses to zero listings the task ends there.  The
safety variant performs no retries at all — see the counterexample. -/
theorem c6_retry_policy (env : Nat → PageFetch) (f : Lead → String)
    (existing localIds : List String) (leads : List Lead) (blocked : Nat)
    (p : Nat) (rest : List Nat) :
    (loopJan env f existing (p :: rest) localIds leads blocked).attempts.head? =
      some (min ((env p).failedAttempts + 1) MAX_RETRIES) ∧
    (loopJan env f existing (p :: rest) localIds leads blocked).sleeps.head? =
      some (min (env p).failedAttempts (MAX_RETRIES - 1)) ∧
    (loopWh env f existing (p :: rest) localIds leads blocked).attempts.head? =
      some (min ((env p).failedAttempts + 1) MAX_RETRIES) ∧
    (loopWh env f existing (p :: rest) localIds leads blocked).sleeps.head? =
      some (min (env p).failedAttempts (MAX_RETRIES - 1)) ∧
    ((env p).failedAttempts ≥ MAX_RETRIES →
      (env p).staleContent.filterMap parse_listing = [] →
      (loopJan env f existing (p :: rest) localIds leads blocked).fetched = [p]) := by
  refine ⟨?_, ?_, ?_, ?_, ?_⟩
  · rw [loopJan]
    by_cases hp : ((shownContent (env p)).filterMap parse_listing).isEmpty = true
    · rw [if_pos hp]
      try rfl
    · rw [if_neg hp]
      by_cases hd : (dedupImmediate existing localIds
          ((shownContent (env p)).filterMap parse_listing)).1.isEmpty = true
      · rw [if_pos hd]
        try rfl
      · rw [if_neg hd]
        try rfl
  · rw [loopJan]
    by_cases hp : ((shownContent (env p)).filterMap parse_listing).isEmpty = true
    · rw [if_pos hp]
      try rfl
    · rw [if_neg hp]
      by_cases hd : (dedupImmediate existing localIds
          ((shownContent (env p)).filterMap parse_listing)).1.isEmpty = true
      · rw [if_pos hd]
        try rfl
      · rw [if_neg hd]
        try rfl
  · rw [loopWh]
    by_cases hp : ((shownContent (env p)).filterMap parse_listing_wh).isEmpty = true
    · rw [if_pos hp]
      try rfl
    · rw [if_neg hp]
      by_cases hd : (dedupImmediate existing localIds
          ((shownContent (env p)).filterMap parse_listing_wh)).1.isEmpty = true
      · rw [if_pos hd]
        try rfl
      · rw [if_neg hd]
        try rfl
  · rw [loopWh]
    by_cases hp : ((shownContent (env p)).filterMap parse_listing_wh).isEmpty = true
    · rw [if_pos hp]
      try rfl
    · rw [if_neg hp]
      by_cases hd : (dedupImmediate existing localIds
          ((shownContent (env p)).filterMap parse_listing_wh)).1.isEmpty = true
      · rw [if_pos hd]
        try rfl
      · rw [if_neg hd]
        try rfl
  · intro hge hstale
    have hshown : shownContent (env p) = (env p).staleContent := by
      unfold shownContent
      rw [if_pos hge]
    rw [loopJan]
    rw [if_pos (by rw [hshown, hstale]; rfl)]
    try rfl

/-- An environment whose every page-load attempt raises and whose stale
session shows nothing. -/
def envAllFail : Nat → PageFetch := fun _ => ⟨5, [sampleListing], []⟩

/-- Witness for C6: with five raising attempts, the janitor loop makes
exactly 3 attempts with 2 inter-retry sleeps and, the stale session being
empty, the task ends at page 1. -/
theorem c6_retry_policy_witness :
    (loopJan envAllFail (fun _ => "") [] pagesFive [] [] 0).attempts.head? = some 3 ∧
    (loopJan envAllFail (fun _ => "") [] pagesFive [] [] 0).sleeps.head? = some 2 ∧
    (loopJan envAllFail (fun _ => "") [] pagesFive [] [] 0).fetched = [1] := by
  obtain ⟨h1, h2, -, -, h5⟩ :=
    c6_retry_policy envAllFail (fun _ => "") [] [] [] 0 1 [2, 3, 4, 5]
  refine ⟨?_, ?_, h5 (by decide) rfl⟩
  · show (loopJan envAllFail (fun _ => "") [] [1, 2, 3, 4, 5] [] [] 0).attempts.head? = some 3
    rw [h1]
    decide
  · show (loopJan envAllFail (fun _ => "") [] [1, 2, 3, 4, 5] [] [] 0).sleeps.head? = some 2
    rw [h2]
    decide

/-- A safety-variant environment: the single navigation attempt for page 1
raises, page 2 renders the sample business, page 3 is empty. -/
def envFailThenContent : Nat → PageFetch :=
  fun p =>
    if p = 1 then ⟨1, [], []⟩
    else if p = 2 then ⟨0, [sampleListing], []⟩
    else ⟨0, [], []⟩

/-- C6 counterexample: in the safety variant a failing page load is not
retried (one attempt, no retry sleeps) and is not treated as a page of
zero listings — the loop `continue`s to page 2, accepts its listing, and
only ends on the genuinely empty page 3.  Under the claim the task would
have ended at page 1 after three attempts. -/
theorem c6_counterexample :
    (envFailThenContent 1).failedAttempts = 1 ∧
    (loopSafety envFailThenContent (fun _ => "") [] pagesFive [] [] 0).attempts = [1, 1, 1] ∧
    (loopSafety envFailThenContent (fun _ => "") [] pagesFive [] [] 0).sleeps = [0, 0, 0] ∧
    (loopSafety envFailThenContent (fun _ => "") [] pagesFive [] [] 0).fetched = [1, 2, 3] ∧
    (loopSafety envFailThenContent (fun _ => "") [] pagesFive [] [] 0).leads.length = 1 := by
  exact ⟨rfl, by decide, by decide, by decide, by decide⟩

/-- C8 (amended): the browser session is torn down on every exit path of
both variants (normal completion and the exception path), and in the
janitor variant an unexpected task-level exception triggers a best-effort
flush: the last save event is exactly the filtered accumulated leads.
The safety variant's exception arm performs no flush — see the
counterexample. -/
theorem c8_exception_flush_teardown (env : Nat → PageFetch) (f : Lead → String)
    (existing : List String) (fileLeads : List Lead) (exc : Option Nat) (k : Nat) :
    (scrapeJan env f existing fileLeads exc).teardown = true ∧
    (scrapeSafety env f existing fileLeads exc).teardown = true ∧
    ((scrapeJan env f existing fileLeads (some k)).loop.leads ≠ [] →
      saveRowsJan (scrapeJan env f existing fileLeads (some k)).loop.leads ≠ [] →
      (scrapeJan env f existing fileLeads (some k)).saves.getLast? =
        some (saveRowsJan (scrapeJan env f existing fileLeads (some k)).loop.leads)) := by
  refine ⟨?_, ?_, ?_⟩
  · cases exc <;> rfl
  · cases exc <;> rfl
  · intro hne hsv
    simp only [scrapeJan] at hne hsv ⊢
    rcases hb1 : ((loopJan env f existing (pagesFive.filter (fun p => p < k))
        (((fileLeads.filter (fun l => is_valid_website l.website)).map
          (fun l => { l with leadId := generate_lead_id l.company l.phone })).map
          (fun l => l.leadId))
        ((fileLeads.filter (fun l => is_valid_website l.website)).map
          (fun l => { l with leadId := generate_lead_id l.company l.phone })) 0).leads).isEmpty
      with - | -
    case false =>
      rcases hb2 : (saveRowsJan (loopJan env f existing (pagesFive.filter (fun p => p < k))
          (((fileLeads.filter (fun l => is_valid_website l.website)).map
            (fun l => { l with leadId := generate_lead_id l.company l.phone })).map
            (fun l => l.leadId))
          ((fileLeads.filter (fun l => is_valid_website l.website)).map
            (fun l => { l with leadId := generate_lead_id l.company l.phone })) 0).leads).isEmpty
        with - | -
      case false =>
        simp only [hb1, hb2, Bool.false_eq_true, ite_false, List.isEmpty_eq_false]
        rw [List.getLast?_concat]
      case true =>
        exact absurd (List.isEmpty_iff.mp hb2) hsv
    case true =>
      exact absurd (List.isEmpty_iff.mp hb1) hne

/-- An environment whose every page is empty (used to abort tasks at page
1 with only the seeded artifact rows accumulated). -/
def envEmpty : Nat → PageFetch := fun _ => ⟨0, [], []⟩

/-- Witness for C8: a janitor task seeded with one valid lead and aborted
by an exception at page 1 flushes that lead as its last save event, and
both variants tear the session down on the normal path. -/
theorem c8_exception_flush_teardown_witness :
    (scrapeJan envEmpty (fun _ => "") [] [cLeadA] (some 1)).saves.getLast? =
      some (saveRowsJan (scrapeJan envEmpty (fun _ => "") [] [cLeadA] (some 1)).loop.leads) ∧
    (scrapeJan envEmpty (fun _ => "") [] [cLeadA] none).teardown = true ∧
    (scrapeSafety envEmpty (fun _ => "") [] [cLeadA] none).teardown = true := by
  obtain ⟨h1, h2, h3⟩ :=
    c8_exception_flush_teardown envEmpty (fun _ => "") [] [cLeadA] none 1
  exact ⟨h3 (by decide) (by decide), h1, h2⟩

/-- C8 counterexample: the safety variant's task-level exception handler
performs no flush — a task aborted at page 1 terminates with a nonempty
accumulator and an empty save trace, even though its session is torn
down.  Under the claim the accumulated Leads would have been flushed to
the Output Artifact before termination. -/
theorem c8_counterexample :
    (scrapeSafety envEmpty (fun _ => "") [] [cLeadA] (some 1)).loop.leads ≠ [] ∧
    (scrapeSafety envEmpty (fun _ => "") [] [cLeadA] (some 1)).saves = [] ∧
    (scrapeSafety envEmpty (fun _ => "") [] [cLeadA] (some 1)).teardown = true := by
  exact ⟨by decide, rfl, rfl⟩
